import Mathlib

/-!
Verification of the Inkwell content-ingestion engine's core layer against its
specification: the HTML sanitizer (`src/transformers/anf/html.ts`), the ANF
component transformer (`src/transformers/anf/components.ts`), the document
assembler (`src/transformers/anf/document.ts`), the ANF validator
(`src/transformers/anf/validate.ts`), the transform façade
(`src/transformers/anf/index.ts`), and the Ghost / ITV News source parsers
(`src/sources/ghost.ts`, `src/sources/itv-news.ts`).

The TypeScript code is embedded shallowly: JS objects become structures and
inductives, cheerio DOM values become an `HNode` tree, fallible code returns
`Except`/`Option`, and the impure clock (`new Date().toISOString()`) becomes
an explicit `now` argument.  JS strings are modelled as Lean strings over
characters (the sources never split surrogate pairs).  JS `number` fields that
the program treats integrally are modelled as `Int`.
-/

namespace Inkwell

/-! ## HTML document model

Model of the cheerio/domhandler DOM that the sanitizer and the Ghost parser
operate on: a node is a text node or an element with a tag name, an attribute
list and children.  Comments, doctypes and CDATA are dropped by the model (no
claim involves them).  Tag names are kept lowercase, as parse5 lowercases
them during parsing. -/

inductive HNode where
  | text (s : String)
  | elem (tag : String) (attrs : List (String × String)) (children : List HNode)

/-- HTML void elements: serialized without closing tag, parsed without
children. -/
def voidTags : List String :=
  ["area", "base", "br", "col", "embed", "hr", "img", "input", "link",
   "meta", "param", "source", "track", "wbr"]

/-- Elements whose text content is serialized raw (no entity escaping), per
the HTML fragment-serialization algorithm implemented by parse5:
script, style, xmp, iframe, noembed, noframes (and noscript, since cheerio
parses with scripting enabled). -/
def rawSerTags : List String :=
  ["script", "style", "xmp", "iframe", "noembed", "noframes", "noscript"]

/-- Elements whose content is tokenized as raw text (or RCDATA) during
parsing, so that their parsed children are a single text node. -/
def rawParseTags : List String :=
  ["script", "style", "xmp", "iframe", "noembed", "noframes", "noscript",
   "textarea", "title"]

/-- Text-node escaping used by the HTML serializer: `&`, `<`, `>`. -/
def escText (s : String) : String :=
  String.join (s.toList.map (fun c =>
    if c = '&' then ("&amp;")
    else if c = '<' then ("&lt;")
    else if c = '>' then ("&gt;")
    else String.mk [c]))

/-- Attribute-value escaping used by the HTML serializer: `&`, `"`. -/
def escAttr (s : String) : String :=
  String.join (s.toList.map (fun c =>
    if c = '&' then ("&amp;")
    else if c = '"' then ("&quot;")
    else String.mk [c]))

def renderAttrs (attrs : List (String × String)) : String :=
  attrs.foldl (fun acc p => acc ++ " " ++ p.1 ++ "=\"" ++ escAttr p.2 ++ "\"") ""

/-- `String.prototype.trim()`, structurally recursive so that concrete
evaluations reduce in the kernel. -/
def jsTrim (s : String) : String :=
  let ws := fun (c : Char) =>
    c = ' ' || c = '\t' || c = '\n' || c = '\r'
  String.mk (((s.toList.dropWhile ws).reverse.dropWhile ws).reverse)

/-- `String.prototype.split(sep)` for a one-character separator. -/
def splitOnCharGo (sep : Char) : List Char → List Char → List String
  | [], acc => [String.mk acc.reverse]
  | c :: rest, acc =>
    if c = sep then String.mk acc.reverse :: splitOnCharGo sep rest []
    else splitOnCharGo sep rest (c :: acc)

def splitOnChar (sep : Char) (s : String) : List String :=
  splitOnCharGo sep s.toList []

/-- `String.prototype.startsWith`. -/
def strStartsWith (s pre : String) : Bool :=
  pre.toList.isPrefixOf s.toList

mutual

/-- HTML serialization of one node (`parse5` serializer as used by cheerio's
`$.html()`); `raw` says whether the parent is a raw-text element, in which
case text is emitted without escaping. -/
def renderNode (raw : Bool) : HNode → String
  | .text s => if raw then s else escText s
  | .elem t attrs cs =>
    let inner :=
      if t ∈ voidTags then ("")
      else renderList (t ∈ rawSerTags) cs ++ "</" ++ t ++ ">"
    "<" ++ t ++ renderAttrs attrs ++ ">" ++ inner

/-- Serialization of a node list (the children of some element, or the
top level of a fragment). -/
def renderList (raw : Bool) : List HNode → String
  | [] => ""
  | n :: rest => renderNode raw n ++ renderList raw rest

end

/-- `$el.html()` — inner HTML of an element. -/
def innerHtml (n : HNode) : String :=
  match n with
  | .text _ => ""
  | .elem t _ cs => renderList (t ∈ rawSerTags) cs

mutual

/-- `$el.text()` — concatenated text content of a node. -/
def textContent : HNode → String
  | .text s => s
  | .elem _ _ cs => textContentList cs

def textContentList : List HNode → String
  | [] => ""
  | n :: rest => textContent n ++ textContentList rest

end

/-- Attribute lookup (`$el.attr(name)`). -/
def HNode.attr (n : HNode) (name : String) : Option String :=
  match n with
  | .text _ => none
  | .elem _ attrs _ => (attrs.find? (fun p => p.1 = name)).map Prod.snd

def HNode.tagName (n : HNode) : String :=
  match n with
  | .text _ => ""
  | .elem t _ _ => t

def HNode.childNodes (n : HNode) : List HNode :=
  match n with
  | .text _ => []
  | .elem _ _ cs => cs

def HNode.isElem (n : HNode) : Bool :=
  match n with
  | .text _ => false
  | .elem _ _ _ => true

/-- The class list of an element (the `class` attribute split on
whitespace). -/
def HNode.classes (n : HNode) : List String :=
  (splitOnChar ' ' ((n.attr ("class")).getD (""))).filter (fun s => s ≠ "")

def HNode.hasClass (n : HNode) (c : String) : Bool :=
  c ∈ n.classes

mutual

/-- The elements of one node's subtree in document (pre)order. -/
def elemsOf : HNode → List HNode
  | .text _ => []
  | .elem t a cs => .elem t a cs :: allElems cs

/-- All elements of a forest in document (pre)order — the cheerio `$('*')`
selection. -/
def allElems : List HNode → List HNode
  | [] => []
  | n :: rest => elemsOf n ++ allElems rest

end

/-- First element of a forest satisfying a predicate, in document order
(`$(sel).first()` for a predicate-style selector). -/
def findElem (p : HNode → Bool) (ns : List HNode) : Option HNode :=
  (allElems ns).find? p

/-- All elements of a forest satisfying a predicate, in document order
(a cheerio selection). -/
def selectElems (p : HNode → Bool) (ns : List HNode) : List HNode :=
  (allElems ns).filter p

/-! ## HTML fragment parsing

Executable model of the parse5 fragment parser as used by
`cheerio.load(html, { xml: false }, false)`: tags with attributes, text
with entity decoding, raw-text content models for the elements in
`rawParseTags`, void elements, and simple error recovery (stray end tags
and markup declarations are skipped).  Comments are dropped.  The parser
uses fuel; the top-level entry point supplies enough fuel for any input. -/

def isTagChar (c : Char) : Bool :=
  c.isAlpha || c.isDigit || c = '-'

def skipWs (cs : List Char) : List Char :=
  cs.dropWhile (fun c => c = ' ' || c = '\n' || c = '\t' || c = '\r')

/-- Decode the HTML character references the model knows
(`&amp; &lt; &gt; &quot; &#39; &apos;`); anything else is literal. -/
def decEnts : List Char → List Char
  | [] => []
  | '&' :: 'a' :: 'm' :: 'p' :: ';' :: rest => '&' :: decEnts rest
  | '&' :: 'l' :: 't' :: ';' :: rest => '<' :: decEnts rest
  | '&' :: 'g' :: 't' :: ';' :: rest => '>' :: decEnts rest
  | '&' :: 'q' :: 'u' :: 'o' :: 't' :: ';' :: rest => '"' :: decEnts rest
  | '&' :: '#' :: '3' :: '9' :: ';' :: rest => '\'' :: decEnts rest
  | '&' :: 'a' :: 'p' :: 'o' :: 's' :: ';' :: rest => '\'' :: decEnts rest
  | c :: rest => c :: decEnts rest

/-- Drop input through the next `>` (inclusive). -/
def dropThroughGt (cs : List Char) : List Char :=
  match cs.dropWhile (fun c => c ≠ '>') with
  | [] => []
  | _ :: rest => rest

/-- Raw-text scan: collect content until the closing tag `close`
(e.g. `['<','/','i','f','r','a','m','e']`), which is then consumed through
its `>`. -/
def scanRaw (close : List Char) (cs : List Char) : String × List Char :=
  match cs with
  | [] => ("", [])
  | c :: rest =>
    if close.isPrefixOf (c :: rest) then ("", dropThroughGt (c :: rest))
    else
      let (s, r) := scanRaw close rest
      (String.mk (c :: s.toList), r)

/-- Attribute parsing, from just after the tag name through the closing
`>`. -/
def parseAttrsL : Nat → List Char → List (String × String) × List Char
  | 0, cs => ([], cs)
  | fuel + 1, cs =>
    match skipWs cs with
    | [] => ([], [])
    | '>' :: rest => ([], rest)
    | '/' :: rest => parseAttrsL fuel rest
    | c :: rest =>
      let nameCs := (c :: rest).takeWhile (fun ch =>
        ch ≠ ' ' && ch ≠ '\n' && ch ≠ '\t' && ch ≠ '\r' && ch ≠ '=' &&
        ch ≠ '>' && ch ≠ '/' && ch ≠ '"' && ch ≠ '\'')
      let afterName := (c :: rest).drop nameCs.length
      if nameCs.isEmpty then parseAttrsL fuel rest
      else
        let name := String.mk (nameCs.map Char.toLower)
        match skipWs afterName with
        | '=' :: r2 =>
          match skipWs r2 with
          | '"' :: r3 =>
            let v := r3.takeWhile (fun ch => ch ≠ '"')
            let r4 := (r3.drop v.length).drop 1
            let (attrs, r5) := parseAttrsL fuel r4
            ((name, String.mk (decEnts v)) :: attrs, r5)
          | '\'' :: r3 =>
            let v := r3.takeWhile (fun ch => ch ≠ '\'')
            let r4 := (r3.drop v.length).drop 1
            let (attrs, r5) := parseAttrsL fuel r4
            ((name, String.mk (decEnts v)) :: attrs, r5)
          | r3 =>
            let v := r3.takeWhile (fun ch =>
              ch ≠ ' ' && ch ≠ '\n' && ch ≠ '\t' && ch ≠ '\r' && ch ≠ '>')
            let (attrs, r5) := parseAttrsL fuel (r3.drop v.length)
            ((name, String.mk (decEnts v)) :: attrs, r5)
        | r2 =>
          let (attrs, r5) := parseAttrsL fuel r2
          ((name, "") :: attrs, r5)

/-- Tree construction: parse nodes until end of input or until the closing
tag of `stop` is reached (which is left for the caller to consume). -/
def parseNodesL : Nat → Option String → List Char → List HNode × List Char
  | 0, _, cs => ([], cs)
  | _ + 1, _, [] => ([], [])
  | fuel + 1, stop, '<' :: '/' :: rest =>
    let nameCs := rest.takeWhile isTagChar
    let name := String.mk (nameCs.map Char.toLower)
    if stop = some name then ([], '<' :: '/' :: rest)
    else parseNodesL fuel stop (dropThroughGt ('<' :: '/' :: rest))
  | fuel + 1, stop, '<' :: '!' :: rest =>
    parseNodesL fuel stop (dropThroughGt ('<' :: '!' :: rest))
  | fuel + 1, stop, '<' :: c :: rest =>
    if isTagChar c then
      let nameCs := (c :: rest).takeWhile isTagChar
      let name := String.mk (nameCs.map Char.toLower)
      let afterName := (c :: rest).drop nameCs.length
      let (attrs, r2) := parseAttrsL (fuel + 1) afterName
      if name ∈ voidTags then
        let (siblings, r3) := parseNodesL fuel stop r2
        (.elem name attrs [] :: siblings, r3)
      else if name ∈ rawParseTags then
        let (txt, r3) := scanRaw ('<' :: '/' :: name.toList) r2
        let kids := if txt = "" then [] else [HNode.text txt]
        let (siblings, r4) := parseNodesL fuel stop r3
        (.elem name attrs kids :: siblings, r4)
      else
        let (kids, r3) := parseNodesL fuel (some name) r2
        let r4 :=
          if ('<' :: '/' :: name.toList).isPrefixOf r3 then dropThroughGt r3
          else r3
        let (siblings, r5) := parseNodesL fuel stop r4
        (.elem name attrs kids :: siblings, r5)
    else
      let (siblings, r) := parseNodesL fuel stop rest
      (.text (String.mk ['<']) :: siblings, r)
  | fuel + 1, stop, c :: rest =>
    let raw := (c :: rest).takeWhile (fun ch => ch ≠ '<')
    let (siblings, r) := parseNodesL fuel stop ((c :: rest).drop raw.length)
    (.text (String.mk (decEnts raw)) :: siblings, r)

/-- Parse an HTML fragment string into a node forest. -/
def parseFrag (h : String) : List HNode :=
  (parseNodesL (2 * h.length + 8) none h.toList).1

/-! ## HTML sanitizer — `sanitizeHtml` (src/transformers/anf/html.ts)

The source walks `$('*')` bottom-up (reversed document order) over a
snapshot of the element list, mutating the DOM; here that pass is the
bottom-up rewrite `sanitizeNode`/`sanitizeList`.  Branches correspond
line-for-line to the source:

* `el.type !== 'tag'` — domhandler gives `script`/`style` elements a type
  other than `'tag'`, so the loop skips them entirely (children included);
* substitution (`mark→b`, `cite→em`, `u→em`, `ins→em`):
  `$el.replaceWith('<sub>' + $el.html() + '</sub>')`.  For the non-raw-text
  parents involved, serializing the already-sanitized children and
  re-parsing returns the same content, so the model keeps the children
  directly;
* allowed tag: attributes stripped except `href` on `a`;
* disallowed tag: unwrap via `$el.replaceWith($el.html())`.  When the tag
  is a raw-text element itself, `$el.html()` is the element's literal text
  content, and re-parsing it materializes fresh markup that the snapshot
  loop never visits, which the model renders and re-parses explicitly;
  otherwise serializing and re-parsing the sanitized children returns
  them unchanged, so the model splices the children in place. -/

def ALLOWED_TAGS : List String :=
  ["a", "b", "strong", "em", "i", "code", "del", "s", "sub", "sup", "br",
   "ul", "ol", "li", "p", "pre", "blockquote"]

def TAG_SUBSTITUTIONS : List (String × String) :=
  [("mark", "b"), ("cite", "em"), ("u", "em"), ("ins", "em")]

def substFor (t : String) : Option String :=
  (TAG_SUBSTITUTIONS.find? (fun p => p.1 = t)).map Prod.snd

/-- Attribute stripping for an allowed tag: every attribute is removed
except that `a` keeps `href`. -/
def stripAttrs (tag : String) (attrs : List (String × String)) :
    List (String × String) :=
  if tag = "a" then attrs.filter (fun p => p.1 = "href") else []

/-- Raw-text elements that the sanitizer's loop actually processes
(domhandler types `script`/`style` are skipped before any branch). -/
def rawUnwrapTags : List String :=
  ["xmp", "iframe", "noembed", "noframes", "noscript"]

mutual

def sanitizeNode (n : HNode) : List HNode :=
  match n with
  | .text s => [.text s]
  | .elem t attrs cs =>
    if t = "script" ∨ t = "style" then [.elem t attrs cs]
    else
      let cs' := sanitizeList cs
      match substFor t with
      | some sub => [.elem sub [] cs']
      | none =>
        if t ∈ ALLOWED_TAGS then [.elem t (stripAttrs t attrs) cs']
        else if t ∈ rawUnwrapTags then parseFrag (renderList true cs')
        else cs'

def sanitizeList (ns : List HNode) : List HNode :=
  match ns with
  | [] => []
  | n :: rest => sanitizeNode n ++ sanitizeList rest

end

/-- `sanitizeHtml` — allowlist HTML rewriter (src/transformers/anf/html.ts). -/
def sanitizeHtml (html : String) : String :=
  if html = "" then ("")
  else renderList false (sanitizeList (parseFrag html))

/-! ## Intermediary document model (src/schema/types.ts) -/

inductive TextFormat where
  | text | html | markdown
deriving DecidableEq, Repr

inductive ListStyle where
  | ordered | unordered
deriving DecidableEq, Repr

inductive EmbedPlatform where
  | youtube | vimeo | dailymotion | facebook | instagram | tiktok | x | other
deriving DecidableEq, Repr

def EmbedPlatform.toStr : EmbedPlatform → String
  | .youtube => "youtube"
  | .vimeo => "vimeo"
  | .dailymotion => "dailymotion"
  | .facebook => "facebook"
  | .instagram => "instagram"
  | .tiktok => "tiktok"
  | .x => "x"
  | .other => "other"

/-- The closed 14-variant body-component union, discriminated on `type`.
JS `number` fields that the code handles integrally (`level`, dimensions,
`headerRows`) are modelled as `Int`/`Nat`. -/
inductive BodyComponent where
  | paragraph (text : String) (format : TextFormat)
  | heading (level : Int) (text : String) (format : TextFormat)
  | blockquote (text : String) (attribution : Option String)
  | pullquote (text : String) (attribution : Option String)
  | list (style : ListStyle) (items : List String)
  | codeBlock (code : String) (language : Option String)
  | preformatted (text : String)
  | image (url : String) (caption credit altText : Option String)
      (width height : Option Int) (mediaRef : Option String)
  | video (url : String) (thumbnailUrl caption credit : Option String)
      (duration : Option Int)
  | embed (platform : EmbedPlatform) (embedUrl : String)
      (caption fallbackText : Option String)
  | divider
  | table (rows : List (List String)) (headerRows : Option Nat)
  | rawHtml (html : String)
  | adPlacement (slot : String)
deriving DecidableEq, Repr

structure ImageRef where
  url : String
  altText : Option String := none
  width : Option Int := none
  height : Option Int := none
deriving DecidableEq, Repr

inductive IngestionMethod where
  | scrape | feed | api
deriving DecidableEq, Repr

structure SourceInfo where
  url : String
  canonicalUrl : Option String := none
  publisherId : String
  cmsType : String
  ingestionMethod : IngestionMethod
  feedUrl : Option String := none
deriving DecidableEq, Repr

inductive Urgency where
  | standard | priority | breaking
deriving DecidableEq, Repr

structure Metadata where
  title : String
  subtitle : Option String := none
  excerpt : Option String := none
  language : String
  publishedAt : String
  modifiedAt : Option String := none
  categories : Option (List String) := none
  tags : Option (List String) := none
  keywords : Option (List String) := none
  /-- the TS field is called `section` (a Lean keyword) -/
  sectionName : Option String := none
  thumbnail : Option ImageRef := none
  urgency : Option Urgency := none
  contentRating : Option String := none
deriving DecidableEq, Repr

structure Author where
  name : String
  url : Option String := none
  bio : Option String := none
  avatar : Option ImageRef := none
deriving DecidableEq, Repr

structure Article where
  version : String
  extractedAt : String
  source : SourceInfo
  metadata : Metadata
  authors : List Author
  body : List BodyComponent
deriving DecidableEq, Repr

/-- JS truthiness of an optional string field (`undefined` and `""` are
both falsy). -/
def truthy : Option String → Bool
  | some s => s ≠ ""
  | none => false

/-! ## ANF component model (src/transformers/anf/types.ts)

The `AnfComponent` union is discriminated on `role`; the heading roles
`heading1..heading6` are carried as the numeric part of the role. -/

inductive AnfTextFormat where
  | html | markdown | none
deriving DecidableEq, Repr

/-- `caption` of a photo: `string | AnfCaptionDescriptor`. -/
inductive AnfCaption where
  | str (s : String)
  | desc (text : String) (format : Option AnfTextFormat)
      (textStyle : Option String)
deriving DecidableEq, Repr

inductive AnfComponent where
  | body (text : String) (format : Option AnfTextFormat)
      (textStyle : Option String) (layout : Option String)
  | heading (n : Int) (text : String) (format : Option AnfTextFormat)
      (textStyle : Option String) (layout : Option String)
  | quote (text : String) (format : Option AnfTextFormat)
      (textStyle : Option String) (layout : Option String)
  | pullquote (text : String) (format : Option AnfTextFormat)
      (textStyle : Option String) (layout : Option String)
  | photo (URL : String) (caption : Option AnfCaption)
      (accessibilityCaption : Option String) (layout : Option String)
  | video (URL : String) (stillURL : Option String) (caption : Option String)
      (accessibilityCaption : Option String) (layout : Option String)
  | embedwebvideo (URL : String) (caption : Option String)
      (accessibilityCaption : Option String) (layout : Option String)
  | tweet (URL : String) (layout : Option String)
  | instagram (URL : String) (layout : Option String)
  | facebookPost (URL : String) (layout : Option String)
  | tiktok (URL : String) (layout : Option String)
  | divider (layout : Option String)
  | htmltable (html : String) (layout : Option String)
  | bannerAdvertisement (bannerType : Option String) (layout : Option String)
deriving DecidableEq, Repr

/-- The `role` discriminator string of a component. -/
def AnfComponent.role : AnfComponent → String
  | .body _ _ _ _ => "body"
  | .heading n _ _ _ _ => "heading" ++ toString n
  | .quote _ _ _ _ => "quote"
  | .pullquote _ _ _ _ => "pullquote"
  | .photo _ _ _ _ => "photo"
  | .video _ _ _ _ _ => "video"
  | .embedwebvideo _ _ _ _ => "embedwebvideo"
  | .tweet _ _ => "tweet"
  | .instagram _ _ => "instagram"
  | .facebookPost _ _ => "facebook_post"
  | .tiktok _ _ => "tiktok"
  | .divider _ => "divider"
  | .htmltable _ _ => "htmltable"
  | .bannerAdvertisement _ _ => "banner_advertisement"

/-- Overwrite the `layout` field of a component
(`(result as Record<string, unknown>).layout = layoutName`). -/
def AnfComponent.setLayout (c : AnfComponent) (l : String) : AnfComponent :=
  match c with
  | .body t f s _ => .body t f s (some l)
  | .heading n t f s _ => .heading n t f s (some l)
  | .quote t f s _ => .quote t f s (some l)
  | .pullquote t f s _ => .pullquote t f s (some l)
  | .photo u c a _ => .photo u c a (some l)
  | .video u st c a _ => .video u st c a (some l)
  | .embedwebvideo u c a _ => .embedwebvideo u c a (some l)
  | .tweet u _ => .tweet u (some l)
  | .instagram u _ => .instagram u (some l)
  | .facebookPost u _ => .facebookPost u (some l)
  | .tiktok u _ => .tiktok u (some l)
  | .divider _ => .divider (some l)
  | .htmltable h _ => .htmltable h (some l)
  | .bannerAdvertisement b _ => .bannerAdvertisement b (some l)

/-! ## Component transformer (src/transformers/anf/components.ts) -/

inductive WarningKind where
  | dropped_component | unsupported_embed | html_sanitized | missing_field
deriving DecidableEq, Repr

structure TransformWarning where
  kind : WarningKind
  message : String
  component : Option String := none
deriving DecidableEq, Repr

structure ComponentResult where
  result : Option AnfComponent
  warnings : List TransformWarning
deriving DecidableEq, Repr

def ok (result : AnfComponent) : ComponentResult :=
  { result := some result, warnings := [] }

def transformParagraph (text0 : String) (format : TextFormat) :
    ComponentResult :=
  let isHtml := format = TextFormat.html
  let sanitized := sanitizeHtml text0
  let warnings : List TransformWarning :=
    if isHtml ∧ sanitized ≠ text0 then
      [{ kind := .html_sanitized,
         message := "HTML was sanitized for paragraph component",
         component := some ("paragraph") }]
    else []
  let text := if isHtml ∧ sanitized ≠ text0 then sanitized else text0
  { result := some (.body text (if isHtml then some .html else none)
      (some ("default-body")) none),
    warnings := warnings }

def transformHeading (level : Int) (text0 : String) (format : TextFormat) :
    ComponentResult :=
  let lvl := max 1 (min 6 level)
  let isHtml := format = TextFormat.html
  let sanitized := sanitizeHtml text0
  let warnings : List TransformWarning :=
    if isHtml ∧ sanitized ≠ text0 then
      [{ kind := .html_sanitized,
         message := "HTML was sanitized for heading component",
         component := some ("heading") }]
    else []
  let text := if isHtml ∧ sanitized ≠ text0 then sanitized else text0
  { result := some (.heading lvl text (if isHtml then some .html else none)
      (some ("default-heading-" ++ toString lvl)) none),
    warnings := warnings }

def appendAttribution (text : String) (attribution : Option String) : String :=
  if truthy attribution then text ++ "\n— " ++ attribution.getD ("")
  else text

def transformBlockquote (text : String) (attribution : Option String) :
    ComponentResult :=
  ok (.quote (appendAttribution text attribution) none
    (some ("default-quote")) none)

def transformPullquote (text : String) (attribution : Option String) :
    ComponentResult :=
  ok (.pullquote (appendAttribution text attribution) none
    (some ("default-pullquote")) none)

def transformList (style : ListStyle) (items : List String) :
    ComponentResult :=
  let tag := if style = ListStyle.ordered then ("ol") else ("ul")
  let itemsHtml := String.join (items.map (fun item => "<li>" ++ item ++ "</li>"))
  ok (.body ("<" ++ tag ++ ">" ++ itemsHtml ++ "</" ++ tag ++ ">")
    (some .html) (some ("default-body")) none)

/-- `escapeHtml` local to components.ts: the chained `.replace` calls are
equivalent to this character map. -/
def escapeHtml (text : String) : String :=
  String.join (text.toList.map (fun c =>
    if c = '&' then ("&amp;")
    else if c = '<' then ("&lt;")
    else if c = '>' then ("&gt;")
    else if c = '"' then ("&quot;")
    else String.mk [c]))

def transformCodeBlock (code : String) (_language : Option String) :
    ComponentResult :=
  ok (.body ("<pre>" ++ escapeHtml code ++ "</pre>") (some .html)
    (some ("default-monospace")) none)

def transformPreformatted (text : String) : ComponentResult :=
  ok (.body ("<pre>" ++ escapeHtml text ++ "</pre>") (some .html)
    (some ("default-monospace")) none)

def transformImage (url : String) (caption credit altText : Option String) :
    ComponentResult :=
  let cap : Option AnfCaption :=
    if truthy caption ∧ truthy credit then
      some (.desc (caption.getD ("") ++ " — " ++ credit.getD ("")) none
        (some ("default-caption")))
    else if truthy caption then
      some (.desc (caption.getD ("")) none (some ("default-caption")))
    else if truthy credit then
      some (.desc (credit.getD ("")) none (some ("default-caption")))
    else none
  let acc := if truthy altText then altText else none
  ok (.photo url cap acc none)

def transformVideo (url : String) (thumbnailUrl caption : Option String) :
    ComponentResult :=
  let still := if truthy thumbnailUrl then thumbnailUrl else none
  let cap := if truthy caption then caption else none
  ok (.video url still cap none none)

def VIDEO_EMBED_PLATFORMS : List EmbedPlatform :=
  [.youtube, .vimeo, .dailymotion]

def transformEmbed (platform : EmbedPlatform) (embedUrl : String)
    (caption fallbackText : Option String) : ComponentResult :=
  if platform ∈ VIDEO_EMBED_PLATFORMS then
    let cap := if truthy caption then caption else none
    ok (.embedwebvideo embedUrl cap none none)
  else if platform = .x then ok (.tweet embedUrl none)
  else if platform = .instagram then ok (.instagram embedUrl none)
  else if platform = .facebook then ok (.facebookPost embedUrl none)
  else if platform = .tiktok then ok (.tiktok embedUrl none)
  else
    let warnings : List TransformWarning :=
      [{ kind := .unsupported_embed,
         message := "Unsupported embed platform \"" ++ platform.toStr
           ++ "\" — rendered as body text fallback",
         component := some ("embed") }]
    if truthy fallbackText then
      { result := some (.body (fallbackText.getD ("")) none
          (some ("default-body")) none),
        warnings := warnings }
    else
      { result := some (.body
          ("<a href=\"" ++ embedUrl ++ "\">" ++ embedUrl ++ "</a>")
          (some .html) (some ("default-body")) none),
        warnings := warnings }

def transformTable (rows : List (List String)) (headerRows : Option Nat) :
    ComponentResult :=
  let headerCount := headerRows.getD 0
  let headerRowsL := rows.take headerCount
  let bodyRows := rows.drop headerCount
  let theadPart :=
    if headerRowsL.length > 0 then
      "<thead>" ++
        headerRowsL.foldl (fun acc row =>
          acc ++ "<tr>" ++
            row.foldl (fun a cell => a ++ "<th>" ++ cell ++ "</th>") "" ++
          "</tr>") "" ++
      "</thead>"
    else ("")
  let tbodyPart :=
    "<tbody>" ++
      bodyRows.foldl (fun acc row =>
        acc ++ "<tr>" ++
          row.foldl (fun a cell => a ++ "<td>" ++ cell ++ "</td>") "" ++
        "</tr>") "" ++
    "</tbody></table>"
  ok (.htmltable ("<table>" ++ theadPart ++ tbodyPart) none)

/-- `transformComponent` — maps one intermediary body component to its ANF
representation (or drops it), with warnings. -/
def transformComponent (component : BodyComponent) : ComponentResult :=
  match component with
  | .paragraph text format => transformParagraph text format
  | .heading level text format => transformHeading level text format
  | .blockquote text attribution => transformBlockquote text attribution
  | .pullquote text attribution => transformPullquote text attribution
  | .list style items => transformList style items
  | .codeBlock code language => transformCodeBlock code language
  | .preformatted text => transformPreformatted text
  | .image url caption credit altText _ _ _ =>
    transformImage url caption credit altText
  | .video url thumbnailUrl caption _ _ =>
    transformVideo url thumbnailUrl caption
  | .embed platform embedUrl caption fallbackText =>
    transformEmbed platform embedUrl caption fallbackText
  | .divider => ok (.divider none)
  | .table rows headerRows => transformTable rows headerRows
  | .rawHtml _ =>
    { result := none,
      warnings := [{ kind := .dropped_component,
                     message := "rawHtml component dropped — not supported in ANF",
                     component := some ("rawHtml") }] }
  | .adPlacement _ => ok (.bannerAdvertisement (some ("any")) none)

/-! ## URL model

`new URL(url)` as the assembler and validator use it: scheme, host and
pathname of an `http(s)`-style absolute URL; `none` models the constructor
throwing. -/

/-- Split a character list at the first occurrence of `pat`, returning the
parts before and after it. -/
def splitFirst (pat : List Char) (cs : List Char) :
    Option (List Char × List Char) :=
  match cs with
  | [] => none
  | c :: rest =>
    if pat.isPrefixOf (c :: rest) then some ([], (c :: rest).drop pat.length)
    else (splitFirst pat rest).map (fun p => (c :: p.1, p.2))

/-- Scheme, host and pathname (path only, query/fragment stripped) of an
absolute URL; `none` when `new URL` would throw for the URL shapes this
program handles. -/
def urlParts (url : String) : Option (String × String × String) :=
  match splitFirst [':', '/', '/'] url.toList with
  | none => none
  | some (schemeCs, rest) =>
    let host := rest.takeWhile (fun c => c ≠ '/' ∧ c ≠ '?' ∧ c ≠ '#')
    let afterHost := rest.drop host.length
    let path := afterHost.takeWhile (fun c => c ≠ '?' ∧ c ≠ '#')
    if schemeCs.isEmpty ∨ host.isEmpty ∨
        ¬ (schemeCs.all (fun c => c.isAlpha ∨ c.isDigit ∨ c = '+' ∨ c = '-' ∨ c = '.')) then
      none
    else
      some (String.mk schemeCs, String.mk host,
        if path.isEmpty then ("/") else String.mk path)

def urlPathname (url : String) : Option String :=
  (urlParts url).map (fun p => p.2.2)

/-- JS `s.slice(0, n)` for `n ≥ 0`. -/
def jsSlice (s : String) (n : Nat) : String :=
  String.mk (s.toList.take n)

/-! ## Document assembler (src/transformers/anf/document.ts) -/

/-- `extractSlug` — last non-empty path segment of the URL, `"article"`
when the URL is invalid or has no segments. -/
def extractSlug (url : String) : String :=
  match urlPathname url with
  | none => "article"
  | some pathname =>
    let segments := (splitOnChar '/' pathname).filter (fun s => s ≠ "")
    (segments.getLast?).getD ("article")

/-- `buildIdentifier` — publisher id + slug, truncated to 64 characters. -/
def buildIdentifier (publisherId : String) (url : String) : String :=
  jsSlice (publisherId ++ "-" ++ extractSlug url) 64

structure AnfComponentTextStyle where
  fontName : Option String := none
  fontSize : Option Int := none
  lineHeight : Option Int := none
  textAlignment : Option String := none
  textColor : Option String := none
  fontWeight : Option String := none
  fontStyle : Option String := none
  paragraphSpacingBefore : Option Int := none
  paragraphSpacingAfter : Option Int := none
deriving DecidableEq, Repr

/-- `buildDefaultTextStyles` — the fixed default style table; a JS object
literal is modelled as an association list in insertion order. -/
def buildDefaultTextStyles : List (String × AnfComponentTextStyle) :=
  [("default-body",
    { fontName := some ("Georgia"), fontSize := some 18, lineHeight := some 28,
      paragraphSpacingBefore := some 12, paragraphSpacingAfter := some 12 }),
   ("default-heading-1",
    { fontName := some ("HelveticaNeue-Bold"), fontSize := some 34,
      lineHeight := some 42, paragraphSpacingBefore := some 28,
      paragraphSpacingAfter := some 12 }),
   ("default-heading-2",
    { fontName := some ("HelveticaNeue-Bold"), fontSize := some 28,
      lineHeight := some 36, paragraphSpacingBefore := some 24,
      paragraphSpacingAfter := some 10 }),
   ("default-heading-3",
    { fontName := some ("HelveticaNeue-Bold"), fontSize := some 24,
      lineHeight := some 32, paragraphSpacingBefore := some 22,
      paragraphSpacingAfter := some 8 }),
   ("default-heading-4",
    { fontName := some ("HelveticaNeue-Bold"), fontSize := some 21,
      lineHeight := some 28, paragraphSpacingBefore := some 20,
      paragraphSpacingAfter := some 8 }),
   ("default-heading-5",
    { fontName := some ("HelveticaNeue-Bold"), fontSize := some 19,
      lineHeight := some 26, paragraphSpacingBefore := some 18,
      paragraphSpacingAfter := some 6 }),
   ("default-heading-6",
    { fontName := some ("HelveticaNeue-Bold"), fontSize := some 18,
      lineHeight := some 24, paragraphSpacingBefore := some 18,
      paragraphSpacingAfter := some 6 }),
   ("default-caption",
    { fontName := some ("HelveticaNeue"), fontSize := some 14,
      lineHeight := some 20, textColor := some ("#6B7280"),
      fontStyle := some ("italic") }),
   ("default-pullquote",
    { fontName := some ("Georgia"), fontSize := some 26, lineHeight := some 36,
      textAlignment := some ("center"), fontStyle := some ("italic"),
      paragraphSpacingBefore := some 20, paragraphSpacingAfter := some 20 }),
   ("default-quote",
    { fontName := some ("Georgia"), fontSize := some 18, lineHeight := some 28,
      fontStyle := some ("italic"), paragraphSpacingBefore := some 16,
      paragraphSpacingAfter := some 16 }),
   ("default-monospace",
    { fontName := some ("Menlo-Regular"), fontSize := some 15,
      lineHeight := some 22, paragraphSpacingBefore := some 12,
      paragraphSpacingAfter := some 12 })]

structure AnfMargin where
  top : Option Int := none
  bottom : Option Int := none
deriving DecidableEq, Repr

structure AnfComponentLayout where
  columnStart : Option Int := none
  columnSpan : Option Int := none
  margin : Option AnfMargin := none
deriving DecidableEq, Repr

def buildDefaultComponentLayouts : List (String × AnfComponentLayout) :=
  [("bodyLayout",
    { columnStart := some 0, columnSpan := some 7,
      margin := some { top := some 15, bottom := some 15 } }),
   ("headingLayout",
    { columnStart := some 0, columnSpan := some 7,
      margin := some { top := some 30, bottom := some 10 } }),
   ("photoLayout",
    { columnStart := some 0, columnSpan := some 7,
      margin := some { top := some 20, bottom := some 20 } }),
   ("headerPhotoLayout",
    { columnStart := some 0, columnSpan := some 7,
      margin := some { top := some 0, bottom := some 20 } }),
   ("quoteLayout",
    { columnStart := some 0, columnSpan := some 7,
      margin := some { top := some 24, bottom := some 24 } }),
   ("pullquoteLayout",
    { columnStart := some 1, columnSpan := some 5,
      margin := some { top := some 24, bottom := some 24 } }),
   ("dividerLayout",
    { columnStart := some 2, columnSpan := some 3,
      margin := some { top := some 24, bottom := some 24 } }),
   ("videoLayout",
    { columnStart := some 0, columnSpan := some 7,
      margin := some { top := some 20, bottom := some 20 } }),
   ("socialEmbedLayout",
    { columnStart := some 1, columnSpan := some 5,
      margin := some { top := some 20, bottom := some 20 } }),
   ("tableLayout",
    { columnStart := some 0, columnSpan := some 7,
      margin := some { top := some 15, bottom := some 15 } }),
   ("adLayout",
    { columnStart := some 0, columnSpan := some 7,
      margin := some { top := some 20, bottom := some 20 } })]

def ROLE_TO_LAYOUT : List (String × String) :=
  [("body", "bodyLayout"), ("heading1", "headingLayout"),
   ("heading2", "headingLayout"), ("heading3", "headingLayout"),
   ("heading4", "headingLayout"), ("heading5", "headingLayout"),
   ("heading6", "headingLayout"), ("photo", "photoLayout"),
   ("quote", "quoteLayout"), ("pullquote", "pullquoteLayout"),
   ("divider", "dividerLayout"), ("video", "videoLayout"),
   ("embedwebvideo", "videoLayout"), ("tweet", "socialEmbedLayout"),
   ("instagram", "socialEmbedLayout"), ("facebook_post", "socialEmbedLayout"),
   ("tiktok", "socialEmbedLayout"), ("htmltable", "tableLayout"),
   ("banner_advertisement", "adLayout")]

/-- `ROLE_TO_LAYOUT[result.role]`, applied when defined
(`if (layoutName) { result.layout = layoutName }`). -/
def assignLayout (c : AnfComponent) : AnfComponent :=
  match ROLE_TO_LAYOUT.find? (fun p => p.1 = c.role) with
  | some p => c.setLayout p.2
  | none => c

structure AnfLayout where
  columns : Int
  width : Int
  margin : Int
  gutter : Int
deriving DecidableEq, Repr

structure AnfMetadata where
  authors : Option (List String) := none
  excerpt : Option String := none
  canonicalURL : Option String := none
  thumbnailURL : Option String := none
  dateCreated : Option String := none
  datePublished : Option String := none
  dateModified : Option String := none
deriving DecidableEq, Repr

structure AnfArticleDocument where
  version : String
  identifier : String
  title : String
  subtitle : Option String := none
  language : String
  layout : AnfLayout
  components : List AnfComponent
  componentTextStyles : List (String × AnfComponentTextStyle)
  componentLayouts : Option (List (String × AnfComponentLayout)) := none
  metadata : Option AnfMetadata := none
deriving DecidableEq, Repr

structure AssembleResult where
  document : AnfArticleDocument
  warnings : List TransformWarning
deriving DecidableEq, Repr

/-- One iteration of the assembler's body loop: append the component's
warnings, then (when the transform produced a component) assign its layout
reference and append it. -/
def assembleStep (acc : List AnfComponent × List TransformWarning)
    (bodyComponent : BodyComponent) :
    List AnfComponent × List TransformWarning :=
  let r := transformComponent bodyComponent
  let warnings := acc.2 ++ r.warnings
  match r.result with
  | none => (acc.1, warnings)
  | some result => (acc.1 ++ [assignLayout result], warnings)

/-- `assembleDocument` — builds the full ANF document from an intermediary
article (src/transformers/anf/document.ts). -/
def assembleDocument (article : Article) : AssembleResult :=
  let headerComponents : List AnfComponent :=
    match article.metadata.thumbnail with
    | some thumb =>
      if thumb.url ≠ "" then
        [.photo thumb.url none
          (if truthy thumb.altText then thumb.altText else none)
          (some ("headerPhotoLayout"))]
      else []
    | none => []
  let (bodyComponents, warnings) :=
    article.body.foldl assembleStep ([], [])
  let components := headerComponents ++ bodyComponents
  let md0 : AnfMetadata :=
    { canonicalURL := some (article.source.canonicalUrl.getD article.source.url),
      dateCreated := some article.metadata.publishedAt,
      datePublished := some article.metadata.publishedAt }
  let md1 :=
    if article.authors.length > 0 then
      { md0 with authors := some (article.authors.map Author.name) }
    else md0
  let md2 :=
    if truthy article.metadata.excerpt then
      { md1 with excerpt := article.metadata.excerpt }
    else md1
  let md3 :=
    match article.metadata.thumbnail with
    | some thumb =>
      if thumb.url ≠ "" then { md2 with thumbnailURL := some thumb.url }
      else md2
    | none => md2
  let md4 :=
    if truthy article.metadata.modifiedAt then
      { md3 with dateModified := article.metadata.modifiedAt }
    else md3
  let doc0 : AnfArticleDocument :=
    { version := "1.9",
      identifier := buildIdentifier article.source.publisherId
        (article.source.canonicalUrl.getD article.source.url),
      title := article.metadata.title,
      language := article.metadata.language,
      layout := { columns := 7, width := 1024, margin := 60, gutter := 20 },
      components := components,
      componentTextStyles := buildDefaultTextStyles,
      componentLayouts := some buildDefaultComponentLayouts,
      metadata := some md4 }
  let doc :=
    if truthy article.metadata.subtitle then
      { doc0 with subtitle := article.metadata.subtitle }
    else doc0
  { document := doc, warnings := warnings }

/-! ## ANF validator (src/transformers/anf/validate.ts) -/

/-- `z.string().url()` — valid absolute URL. -/
def isZodUrl (s : String) : Bool :=
  (urlParts s).isSome

def charDigitVal (c : Char) : Nat := c.toNat - 48

/-- Fractional-seconds-then-`Z` tail of an ISO datetime. -/
def fracThenZ (seenDigit : Bool) : List Char → Bool
  | ['Z'] => seenDigit
  | c :: rest => c.isDigit && fracThenZ true rest
  | [] => false

/-- `z.string().datetime()` — UTC ISO-8601 timestamp
`YYYY-MM-DDTHH:mm:ss(.s+)?Z`. -/
def isZodDatetime (s : String) : Bool :=
  match s.toList with
  | y1 :: y2 :: y3 :: y4 :: '-' :: m1 :: m2 :: '-' :: d1 :: d2 :: 'T' ::
      h1 :: h2 :: ':' :: n1 :: n2 :: ':' :: s1 :: s2 :: rest =>
    [y1, y2, y3, y4, m1, m2, d1, d2, h1, h2, n1, n2, s1, s2].all Char.isDigit &&
    (let mo := charDigitVal m1 * 10 + charDigitVal m2
     let da := charDigitVal d1 * 10 + charDigitVal d2
     let ho := charDigitVal h1 * 10 + charDigitVal h2
     let mi := charDigitVal n1 * 10 + charDigitVal n2
     let se := charDigitVal s1 * 10 + charDigitVal s2
     1 ≤ mo && mo ≤ 12 && 1 ≤ da && da ≤ 31 && ho ≤ 23 && mi ≤ 59 && se ≤ 59) &&
    (match rest with
     | ['Z'] => true
     | '.' :: rest' => fracThenZ false rest'
     | _ => false)
  | _ => false

def validMetadata (m : AnfMetadata) : Bool :=
  (match m.canonicalURL with | some u => isZodUrl u | none => true) &&
  (match m.thumbnailURL with | some u => isZodUrl u | none => true) &&
  (match m.dateCreated with | some d => isZodDatetime d | none => true) &&
  (match m.datePublished with | some d => isZodDatetime d | none => true) &&
  (match m.dateModified with | some d => isZodDatetime d | none => true)

/-- `validateAnfDocument` — the strict document gate: `Except.error` models
the thrown `ZodError`. -/
def validateAnfDocument (d : AnfArticleDocument) :
    Except String AnfArticleDocument :=
  if d.version.length < 1 then .error ("version: too short")
  else if d.identifier.length < 1 ∨ 64 < d.identifier.length then
    .error ("identifier: length out of range")
  else if d.title.length < 1 then .error ("title: too short")
  else if d.language.length < 1 then .error ("language: too short")
  else if ¬ (0 < d.layout.columns ∧ 0 < d.layout.width) then
    .error ("layout: expected positive integers")
  else if d.components.length < 1 then
    .error ("components: expected at least 1 element")
  else if ¬ (d.components.all (fun c => 1 ≤ c.role.length)) then
    .error ("components: role too short")
  else
    match d.metadata with
    | none => .ok d
    | some m =>
      if validMetadata m then .ok d else .error ("metadata: invalid")

/-- `transformToAnf` — the transform façade: assemble, then validate
(the thrown `ZodError` surfaces as `Except.error`). -/
def transformToAnf (article : Article) : Except String AssembleResult :=
  let r := assembleDocument article
  match validateAnfDocument r.document with
  | .ok _ => .ok r
  | .error e => .error e

/-! ## JSON values

Untyped JSON data (JSON-LD blocks, the `__NEXT_DATA__` payload) as the
parsers consume it.  Numbers are modelled as integers (the parsers only
read integral dimensions).  `JSON.parse` itself is a parameter
(`jsonParse`) of the parser embeddings: it lives in the shared extraction
module, which is not part of the sources under verification. -/

inductive Json where
  | null
  | bool (b : Bool)
  | num (n : Int)
  | str (s : String)
  | arr (items : List Json)
  | obj (fields : List (String × Json))

/-- Field access `j.f` on an object; `none` models `undefined`. -/
def Json.get (j : Json) (field : String) : Option Json :=
  match j with
  | .obj fields => (fields.find? (fun p => p.1 = field)).map Prod.snd
  | _ => none

def Json.asStr : Json → Option String
  | .str s => some s
  | _ => none

def Json.asArr : Json → Option (List Json)
  | .arr items => some items
  | _ => none

def Json.asNum : Json → Option Int
  | .num n => some n
  | _ => none

/-- `j?.f` read as a string (`undefined` when absent or not a string). -/
def Json.getStr (j : Json) (field : String) : Option String :=
  (j.get field).bind Json.asStr

def Json.getNum (j : Json) (field : String) : Option Int :=
  (j.get field).bind Json.asNum

def Json.getArr (j : Json) (field : String) : List Json :=
  ((j.get field).bind Json.asArr).getD []

/-- JS truthiness of a JSON value. -/
def Json.truthyVal : Json → Bool
  | .null => false
  | .bool b => b
  | .num n => n ≠ 0
  | .str s => s ≠ ""
  | .arr _ => true
  | .obj _ => true

/-- String interpolation of a possibly-missing JSON field into a template
literal (JS renders `undefined` as the string `"undefined"`). -/
def Json.fieldTemplate (j : Json) (field : String) : String :=
  match j.get field with
  | some (.str s) => s
  | some (.num n) => toString n
  | some (.bool b) => if b then ("true") else ("false")
  | some .null => "null"
  | some (.arr _) => ""
  | some (.obj _) => "[object Object]"
  | none => "undefined"

/-! ## Shared extraction utilities (src/sources/shared/extract.ts)

Used by both parsers.  Only the JS language builtins remain parameters of
the embedding: `jsonParse` models `JSON.parse` (`none` when it throws) and
`dateToIso` models `(d) => new Date(d).toISOString()`. -/

/-- Substring test (`RegExp.test` with a literal pattern /
`String.prototype.includes`). -/
def containsSub (s sub : String) : Bool :=
  (splitFirst sub.toList s.toList).isSome || sub = ""

/-- Replace the first occurrence of `pat` (JS `s.replace(pat, repl)` with a
string pattern). -/
def replaceFirst (s pat repl : String) : String :=
  match splitFirst pat.toList s.toList with
  | some (before, after) => String.mk before ++ repl ++ String.mk after
  | none => s

/-- `extractJsonLd($)` — walks every
`script[type="application/ld+json"]` block in document order, parses each,
and keeps the ones whose `@type` is `NewsArticle` or `Article` (the last
such block wins); malformed JSON is skipped. -/
def extractJsonLd (jsonParse : String → Option Json) (doc : List HNode) :
    Option Json :=
  (selectElems (fun n => n.tagName = "script" &&
      n.attr ("type") = some ("application/ld+json")) doc).foldl
    (fun result el =>
      match jsonParse (innerHtml el) with
      | some data =>
        if data.getStr ("@type") = some ("NewsArticle") ∨
            data.getStr ("@type") = some ("Article") then some data
        else result
      | none => result)
    none

/-- One JS object assignment `tags[prop] = content` on an
insertion-ordered string map. -/
def setTag (tags : List (String × String)) (k v : String) :
    List (String × String) :=
  if tags.any (fun p => p.1 = k) then
    tags.map (fun p => if p.1 = k then (k, v) else p)
  else tags ++ [(k, v)]

/-- `extractOgTags($)` — collects `meta[property^='og:']` elements into a
property→content map, skipping entries whose `property` or `content` is
missing or empty (the truthiness guard `if (prop && content)`). -/
def extractOgTags (doc : List HNode) : List (String × String) :=
  (selectElems (fun n => n.tagName = "meta" &&
      strStartsWith ((n.attr ("property")).getD "") ("og:")) doc).foldl
    (fun tags el =>
      match el.attr ("property"), el.attr ("content") with
      | some prop, some content =>
        if prop ≠ "" ∧ content ≠ "" then setTag tags prop content else tags
      | _, _ => tags)
    []

def ogGet (tags : List (String × String)) (key : String) : Option String :=
  (tags.find? (fun p => p.1 = key)).map Prod.snd

/-- `EMBED_PATTERNS` / `detectEmbedPlatform(url)` — ordered pattern
matching over the URL, defaulting to `other`. -/
def detectEmbedPlatform (url : String) : EmbedPlatform :=
  if containsSub url ("youtube.com") || containsSub url ("youtu.be") then .youtube
  else if containsSub url ("vimeo.com") then .vimeo
  else if containsSub url ("dailymotion.com") then .dailymotion
  else if containsSub url ("facebook.com") || containsSub url ("fb.watch") then .facebook
  else if containsSub url ("instagram.com") then .instagram
  else if containsSub url ("tiktok.com") then .tiktok
  else if containsSub url ("twitter.com") || containsSub url ("x.com") then .x
  else .other

/-- The unanchored test `/\d{4}-\d{2}-\d{2}T\d{2}:\d{2}:\d{2}/.test(date)`:
does the ISO date-time shape occur at this position? -/
def isoShapeAt (cs : List Char) : Bool :=
  match cs with
  | y1 :: y2 :: y3 :: y4 :: '-' :: m1 :: m2 :: '-' :: d1 :: d2 :: 'T' ::
      h1 :: h2 :: ':' :: n1 :: n2 :: ':' :: s1 :: s2 :: _ =>
    [y1, y2, y3, y4, m1, m2, d1, d2, h1, h2, n1, n2, s1, s2].all Char.isDigit
  | _ => false

def isoShapeSearch : List Char → Bool
  | [] => false
  | c :: rest => isoShapeAt (c :: rest) || isoShapeSearch rest

/-- `date.endsWith("Z")`. -/
def strEndsWithZ (s : String) : Bool :=
  match s.toList.reverse with
  | 'Z' :: _ => true
  | _ => false

/-- The test `/[+-]\d{2}:\d{2}$/.test(date)`. -/
def endsWithTzOffset (s : String) : Bool :=
  match s.toList.reverse with
  | b2 :: b1 :: ':' :: a2 :: a1 :: sign :: _ =>
    (sign = '+' || sign = '-') && [a1, a2, b1, b2].all Char.isDigit
  | _ => false

/-- `ensureIso(date)` — appends `Z` to zone-less ISO-shaped dates and
otherwise normalizes through the JS `Date` builtin (`dateToIso`). -/
def ensureIso (dateToIso : String → String) (date : String) : String :=
  if isoShapeSearch date.toList then
    if ¬ strEndsWithZ date ∧ ¬ endsWithTzOffset date then date ++ "Z"
    else dateToIso date
  else dateToIso date

/-- JS `parseInt(s, 10)`: optional sign and leading decimal digits;
`none` models `NaN`. -/
def parseIntJs (s : String) : Option Int :=
  let cs := skipWs s.toList
  let (sign, cs') : Int × List Char :=
    match cs with
    | '-' :: rest => (-1, rest)
    | '+' :: rest => (1, rest)
    | _ => (1, cs)
  let digits := cs'.takeWhile Char.isDigit
  if digits.isEmpty then none
  else some (sign * (digits.foldl (fun acc c => acc * 10 + charDigitVal c) 0 : Nat))

/-- First-occurrence-preserving deduplication (`[...new Set(xs)]`). -/
def dedupFirst (l : List String) : List String :=
  (l.foldl (fun acc x => if x ∈ acc then acc else acc ++ [x]) [])

/-! ## Ghost parser (src/sources/ghost.ts)

The cheerio document `$` is the node forest `doc`; `jsonParse` models the
`JSON.parse` builtin used inside `extractJsonLd`, `dateToIso` the `Date`
builtin used inside `ensureIso`; `now` is `new Date().toISOString()`. -/

/-- `GHOST_PUBLISHERS[0].pattern` — `^https?:\/\/(www\.)?404media\.co\//`. -/
def matches404media (url : String) : Bool :=
  strStartsWith url ("https://404media.co/") ||
  strStartsWith url ("https://www.404media.co/") ||
  strStartsWith url ("http://404media.co/") ||
  strStartsWith url ("http://www.404media.co/")

/-- `resolvePublisher` — throws when no Ghost publisher pattern matches. -/
def ghostResolvePublisher (url : String) : Except String String :=
  if matches404media url then .ok ("404-media")
  else .error ("No Ghost publisher for URL: " ++ url)

def ghostBuildSource (url canonicalUrl publisherId : String) : SourceInfo :=
  { url := url, canonicalUrl := some canonicalUrl,
    publisherId := publisherId, cmsType := "ghost",
    ingestionMethod := .scrape }

def ghostBuildThumbnail (jsonLd : Option Json)
    (ogTags : List (String × String)) : Option ImageRef :=
  match jsonLd.bind (fun j => j.get ("image")) with
  | some img =>
    some { url := match img with
             | .str s => s
             | _ => (img.getStr ("url")).getD (""),
           width := match img with
             | .str _ => none
             | _ => img.getNum ("width"),
           height := match img with
             | .str _ => none
             | _ => img.getNum ("height") }
  | none =>
    match ogGet ogTags ("og:image") with
    | some u =>
      some { url := u,
             width := (ogGet ogTags ("og:image:width")).bind parseIntJs,
             height := (ogGet ogTags ("og:image:height")).bind parseIntJs }
    | none => none

/-- `jsonLd?.keywords` — a comma-separated string is split and trimmed, an
array is taken as is. -/
def jsonLdKeywords (jsonLd : Option Json) : Option (List String) :=
  match jsonLd.bind (fun j => j.get ("keywords")) with
  | some (.str s) => some ((splitOnChar ',' s).map jsTrim)
  | some (.arr items) => some (items.filterMap Json.asStr)
  | some _ => none
  | none => none

def isSpaceChar (c : Char) : Bool :=
  c = ' ' || c = '\t' || c = '\n' || c = '\r'

/-- `bodyClass.split(/\s+/)`. -/
def splitWs (s : String) : List String :=
  (splitOnChar ' ' s).flatMap (fun p => (splitOnChar '\t' p).flatMap (fun q =>
    (splitOnChar '\n' q).flatMap (fun r => splitOnChar '\r' r)))
  |>.filter (fun p => p ≠ "")

def ghostBuildMetadata (dateToIso : String → String) (now : String)
    (doc : List HNode) (jsonLd : Option Json)
    (ogTags : List (String × String)) : Metadata :=
  let title := ((jsonLd.bind (fun j => j.getStr ("headline"))).orElse
    (fun _ => ogGet ogTags ("og:title"))).getD ("Untitled")
  let publishedAt := ((jsonLd.bind (fun j => j.getStr ("datePublished"))).orElse
    (fun _ => ogGet ogTags ("article:published_time"))).getD now
  let thumbnail := ghostBuildThumbnail jsonLd ogTags
  let keywords := jsonLdKeywords jsonLd
  let bodyClass := ((findElem (fun n => n.tagName = "body") doc).bind
    (fun n => n.attr ("class"))).getD ("")
  let tags := dedupFirst ((splitWs bodyClass).filter
      (fun c => strStartsWith c ("tag-")) |>.map
      (fun c => String.join ((splitOnChar '-' (replaceFirst c ("tag-") ""))
        |>.intersperse (" "))))
  { title := title,
    excerpt := (jsonLd.bind (fun j => j.getStr ("description"))).orElse
      (fun _ => ogGet ogTags ("og:description")),
    language := ((ogGet ogTags ("og:locale")).map
      (fun l => replaceFirst l ("_") "-")).getD ("en"),
    publishedAt := ensureIso dateToIso publishedAt,
    modifiedAt := match jsonLd.bind (fun j => j.get ("dateModified")) with
      | some v => if v.truthyVal then (v.asStr.map (ensureIso dateToIso)) else none
      | none => none,
    keywords := match keywords with
      | some ks => if ks.length > 0 then some ks else none
      | none => none,
    tags := if tags.length > 0 then some tags else none,
    thumbnail := thumbnail }

def ghostBuildAuthors (jsonLd : Option Json) : List Author :=
  match jsonLd.bind (fun j => j.get ("author")) with
  | none => []
  | some a =>
    if a.truthyVal then
      let authors := match a with
        | .arr items => items
        | _ => [a]
      (authors.filter (fun au => truthy (au.getStr ("name")))).map (fun au =>
        { name := (au.getStr ("name")).getD (""),
          url := au.getStr ("url") })
    else []

/-- Ghost content container selectors, in priority order
(`.post__content`, `.gh-content`, `.post-content`, `article .content`). -/
def selClass (c : String) (doc : List HNode) : List HNode :=
  selectElems (fun n => n.hasClass c) doc

def selTag (t : String) (doc : List HNode) : List HNode :=
  selectElems (fun n => n.tagName = t) doc

/-- `article .content` — descendant selector. -/
def selArticleContent (doc : List HNode) : List HNode :=
  (selTag ("article") doc).flatMap (fun n => selClass ("content") n.childNodes)

/-- `findContentRoot` — first non-empty selection among the content
selectors, falling back to the `article` tag itself (possibly an empty
selection). -/
def findContentRoot (doc : List HNode) : List HNode :=
  let s1 := selClass ("post__content") doc
  if s1.length > 0 then s1 else
  let s2 := selClass ("gh-content") doc
  if s2.length > 0 then s2 else
  let s3 := selClass ("post-content") doc
  if s3.length > 0 then s3 else
  let s4 := selArticleContent doc
  if s4.length > 0 then s4 else
  selTag ("article") doc

def ghostConvertParagraph (el : HNode) : List BodyComponent :=
  let html := jsTrim (innerHtml el)
  if html = "" then [] else [.paragraph html .html]

def ghostConvertHeading (el : HNode) (level : Int) : List BodyComponent :=
  [.heading level (jsTrim (textContent el)) .text]

def ghostConvertBlockquote (el : HNode) : List BodyComponent :=
  [.blockquote (jsTrim (textContent el)) none]

def ghostConvertList (el : HNode) (style : ListStyle) : List BodyComponent :=
  let items := (el.childNodes.filter (fun c => c.tagName = "li")).filterMap
    (fun li => let h := jsTrim (innerHtml li); if h = "" then none else some h)
  [.list style items]

def ghostConvertImage (figure img : HNode) : List BodyComponent :=
  let url := (img.attr ("src")).getD ("")
  let altText := match img.attr ("alt") with
    | some a => if a = "" then none else some a
    | none => none
  let capText := jsTrim (textContentList (selTag ("figcaption") figure.childNodes))
  let caption := if capText = "" then none else some capText
  let width := (img.attr ("width")).bind parseIntJs
  let height := (img.attr ("height")).bind parseIntJs
  [.image url caption none altText width height none]

def ghostConvertGallery (el : HNode) : List BodyComponent :=
  (selTag ("img") el.childNodes).map (fun img =>
    .image ((img.attr ("src")).getD (""))
      (none) none
      (match img.attr ("alt") with
       | some a => if a = "" then none else some a
       | none => none)
      none none none)

def ghostConvertEmbed (el : HNode) : List BodyComponent :=
  match findElem (fun n => n.tagName = "iframe") el.childNodes with
  | none => []
  | some iframe =>
    match iframe.attr ("src") with
    | none => []
    | some embedUrl =>
      if embedUrl = "" then []
      else
        let capText := jsTrim (textContentList (selTag ("figcaption") el.childNodes))
        [.embed (detectEmbedPlatform embedUrl) embedUrl
          (if capText = "" then none else some capText) none]

def ghostConvertBookmark (el : HNode) : List BodyComponent :=
  let link := findElem (fun n => n.tagName = "a" &&
    n.hasClass ("kg-bookmark-container")) el.childNodes
  let href := (link.bind (fun l => l.attr ("href"))).getD ("")
  let titleText := jsTrim (textContentList
    (selClass ("kg-bookmark-title") el.childNodes))
  let title := if titleText = "" then ("Bookmark") else titleText
  [.paragraph ("<a href=\"" ++ escapeHtml href ++ "\">"
    ++ escapeHtml title ++ "</a>") .html]

def ghostConvertVideo (el : HNode) : List BodyComponent :=
  let video := findElem (fun n => n.tagName = "video") el.childNodes
  let url := (video.bind (fun v => v.attr ("src"))).getD ("")
  let poster := video.bind (fun v => v.attr ("poster"))
  let capText := jsTrim (textContentList (selTag ("figcaption") el.childNodes))
  let thumbnailUrl := match poster with
    | some p => if p ≠ "" && ¬ containsSub p ("spacergif") then some p else none
    | none => none
  [.video url thumbnailUrl (if capText = "" then none else some capText)
    none none]

def ghostConvertCodeBlock (el : HNode) : List BodyComponent :=
  let code := findElem (fun n => n.tagName = "code") el.childNodes
  let language := match code.bind (fun c => c.attr ("class")) with
    | some cls =>
      let l := replaceFirst cls ("language-") ""
      if l = "" then none else some l
    | none => none
  [.codeBlock ((code.map textContent).getD ("")) language]

def ghostConvertFigure (el : HNode) : List BodyComponent :=
  if el.hasClass ("kg-gallery-card") then ghostConvertGallery el
  else if el.hasClass ("kg-embed-card") then ghostConvertEmbed el
  else if el.hasClass ("kg-bookmark-card") then ghostConvertBookmark el
  else if el.hasClass ("kg-video-card") then ghostConvertVideo el
  else
    match findElem (fun n => n.tagName = "img") el.childNodes with
    | some img => ghostConvertImage el img
    | none => []

mutual

/-- `convertElement` — converts one element of the content container into
zero, one or many body components (`null`/`[]` both modelled as `[]`,
since `buildBody` flattens and skips them identically). -/
def ghostConvertElement (el : HNode) : List BodyComponent :=
  match el with
  | .text _ => []
  | .elem tag attrs cs =>
    if tag = "p" then ghostConvertParagraph (.elem tag attrs cs)
    else if tag = "h2" then ghostConvertHeading (.elem tag attrs cs) 2
    else if tag = "h3" then ghostConvertHeading (.elem tag attrs cs) 3
    else if tag = "h4" then ghostConvertHeading (.elem tag attrs cs) 4
    else if tag = "blockquote" then ghostConvertBlockquote (.elem tag attrs cs)
    else if tag = "ul" then ghostConvertList (.elem tag attrs cs) .unordered
    else if tag = "ol" then ghostConvertList (.elem tag attrs cs) .ordered
    else if tag = "hr" then [.divider]
    else if tag = "figure" then ghostConvertFigure (.elem tag attrs cs)
    else if tag = "pre" then ghostConvertCodeBlock (.elem tag attrs cs)
    else if tag = "div" then
      -- Ghost Koenig cards rendered as divs (`convertDiv`)
      let n : HNode := .elem tag attrs cs
      if n.hasClass ("kg-callout-card") then
        let text := jsTrim (textContentList (selClass ("kg-callout-text") cs))
        if text ≠ "" then [.blockquote text none] else []
      else if n.hasClass ("outpost-pub-container") then []
      else if n.hasClass ("post-author") then []
      else if n.hasClass ("post-access-cta") then []
      else if n.hasClass ("post-sneak-peek") then
        -- Paywalled preview — still parse its children
        ghostConvertElems cs
      else []
    else []

/-- `$el.children().each(...)` — convert the element children of a node
list in order, flattening. -/
def ghostConvertElems : List HNode → List BodyComponent
  | [] => []
  | n :: rest =>
    (if n.isElem then ghostConvertElement n else []) ++ ghostConvertElems rest

end

/-- `buildBody` — walk the element children of the content root in
document order. -/
def ghostBuildBody (doc : List HNode) : List BodyComponent :=
  (findContentRoot doc).flatMap (fun root => ghostConvertElems root.childNodes)

/-- `parse` of the Ghost source — `parseArticle(html, url)` over the
loaded document `doc`. -/
def ghostParse (jsonParse : String → Option Json)
    (dateToIso : String → String) (now : String)
    (doc : List HNode) (url : String) : Except String Article := do
  let jsonLd := extractJsonLd jsonParse doc
  let ogTags := extractOgTags doc
  let canonical := (((findElem (fun n => n.tagName = "link" &&
      n.attr ("rel") = some ("canonical")) doc).bind
      (fun n => n.attr ("href"))).orElse
    (fun _ => ogGet ogTags ("og:url"))).getD url
  let publisherId ← ghostResolvePublisher url
  let source := ghostBuildSource url canonical publisherId
  let metadata := ghostBuildMetadata dateToIso now doc jsonLd ogTags
  let authors := ghostBuildAuthors jsonLd
  let body := ghostBuildBody doc
  return { version := "1.0", extractedAt := now, source := source,
           metadata := metadata, authors := authors, body := body }

/-- `ghostSource.parseArticle(html, url)` — parse the raw HTML string. -/
def ghostParseArticle (jsonParse : String → Option Json)
    (dateToIso : String → String) (now : String)
    (html : String) (url : String) : Except String Article :=
  ghostParse jsonParse dateToIso now (parseFrag html) url

/-! ## ITV News parser (src/sources/itv-news.ts)

Contentful rich-text nodes are untyped JSON (`ContentfulNode`); the
recursive walkers take fuel (instantiated with `sizeOf`, which bounds the
nesting depth). -/

/-- `extractNextData` — `$('#__NEXT_DATA__').html()`, `null` when the
element is absent, its content is empty, or `JSON.parse` throws. -/
def extractNextData (jsonParse : String → Option Json) (doc : List HNode) :
    Option Json :=
  match findElem (fun n => n.attr ("id") = some ("__NEXT_DATA__")) doc with
  | none => none
  | some el =>
    let script := innerHtml el
    if script = "" then none else jsonParse script

theorem Json.sizeOf_get {j v : Json} {f : String} (h : j.get f = some v) :
    sizeOf v < sizeOf j := by
  cases j with
  | obj fields =>
    simp only [Json.get, Option.map_eq_some'] at h
    obtain ⟨p, hfind, hv⟩ := h
    have hmem := List.mem_of_find?_eq_some hfind
    have hlt := List.sizeOf_lt_of_mem hmem
    cases p with
    | mk a b =>
      simp only [Prod.mk.sizeOf_spec] at hlt
      simp only [Json.obj.sizeOf_spec]
      simp only at hv
      subst hv
      omega
  | null => simp [Json.get] at h
  | bool b => simp [Json.get] at h
  | num n => simp [Json.get] at h
  | str s => simp [Json.get] at h
  | arr items => simp [Json.get] at h

theorem Json.sizeOf_getArr_mem {j x : Json} {f : String}
    (h : x ∈ j.getArr f) : sizeOf x < sizeOf j := by
  unfold Json.getArr at h
  cases hg : j.get f with
  | none => rw [hg] at h; simp at h
  | some v =>
    rw [hg] at h
    cases v with
    | arr items =>
      simp [Json.asArr] at h
      have h1 := List.sizeOf_lt_of_mem h
      have h2 := Json.sizeOf_get hg
      simp only [Json.arr.sizeOf_spec] at h2
      omega
    | null => simp [Json.asArr] at h
    | bool b => simp [Json.asArr] at h
    | num n => simp [Json.asArr] at h
    | str s => simp [Json.asArr] at h
    | obj fields => simp [Json.asArr] at h

/-- `getPlainText` — concatenated text values of a rich-text node. -/
def getPlainText (block : Json) : String :=
  match block with
  | .null => ""
  | b =>
    if b.getStr ("nodeType") = some ("text") then
      (b.getStr ("value")).getD ("")
    else
      String.join ((b.getArr ("content")).attach.map
        (fun c => getPlainText c.1))
termination_by sizeOf block
decreasing_by exact Json.sizeOf_getArr_mem c.2

/-- `renderNode` of itv-news.ts (named `renderRichNode` here to avoid the
HTML serializer's `renderNode`) — rich-text node to HTML: text values
entity-escaped and wrapped by their marks, hyperlinks to anchors, other
nodes render their children. -/
def renderRichNode (node : Json) : String :=
  if node.getStr ("nodeType") = some ("text") then
    (node.getArr ("marks")).foldl (fun t mark =>
      match mark.getStr ("type") with
      | some m =>
        if m = "bold" then ("<strong>") ++ t ++ "</strong>"
        else if m = "italic" then ("<em>") ++ t ++ "</em>"
        else if m = "underline" then ("<u>") ++ t ++ "</u>"
        else if m = "code" then ("<code>") ++ t ++ "</code>"
        else t
      | none => t)
      (escapeHtml ((node.getStr ("value")).getD ("")))
  else if node.getStr ("nodeType") = some ("hyperlink") then
    let href := escapeHtml ((((node.get ("data")).bind
      (fun d => d.getStr ("uri")))).getD (""))
    "<a href=\"" ++ href ++ "\">"
      ++ String.join ((node.getArr ("content")).attach.map
          (fun c => renderRichNode c.1))
      ++ "</a>"
  else
    String.join ((node.getArr ("content")).attach.map
      (fun c => renderRichNode c.1))
termination_by sizeOf node
decreasing_by
  all_goals exact Json.sizeOf_getArr_mem c.2

def renderRichText (nodes : List Json) : String :=
  String.join (nodes.map renderRichNode)

/-- `convertEmbeddedEntry` — CMS embedded entries (images, Brightcove
videos, tile links, podcasts). -/
def convertEmbeddedEntry (block : Json) : List BodyComponent :=
  let contentType := (block.getStr ("contentType")).orElse
    (fun _ => (block.get ("data")).bind (fun d => d.getStr ("contentType")))
  let data := (block.get ("data")).getD (Json.obj [])
  match contentType with
  | some ct =>
    if ct = "image" then
      [.image ((data.getStr ("url")).getD (""))
        (data.getStr ("caption"))
        (match data.get ("credit") with
         | some v => if v.truthyVal then v.asStr else none
         | none => none)
        ((data.getStr ("description")).orElse
          (fun _ => data.getStr ("caption")))
        none none none]
    else if ct = "Brightcove" then
      [.video ("https://players.brightcove.net/"
          ++ data.fieldTemplate ("accountId") ++ "/"
          ++ data.fieldTemplate ("playerId")
          ++ "_default/index.html?videoId=" ++ data.fieldTemplate ("id"))
        ((data.get ("poster")).bind (fun p => p.getStr ("url")))
        (match data.get ("guidance") with
         | some v => if v.truthyVal then v.asStr else none
         | none => none)
        none none]
    else if ct = "tile-links" then
      (data.getArr ("articles")).map (fun a =>
        .paragraph ("<a href=\"https://www.itv.com/news/"
          ++ a.fieldTemplate ("link") ++ "\">"
          ++ escapeHtml (((a.getStr ("shortTitle")).orElse
              (fun _ => a.getStr ("title"))).getD ("Related article"))
          ++ "</a>") .html)
    else if ct = "podcast-show" then
      [.rawHtml ("<!-- podcast: "
        ++ escapeHtml (((data.getStr ("title")).orElse
            (fun _ => data.getStr ("id"))).getD (""))
        ++ " -->")]
    else []
  | none => []

/-- Items of a Contentful list block: each list item's paragraphs rendered
and joined with a space. -/
def convertListItems (block : Json) : List String :=
  (block.getArr ("content")).map (fun li =>
    String.intercalate (" ") ((li.getArr ("content")).map (fun child =>
      renderRichText (child.getArr ("content")))))

/-- `convertBlock` — one rich-text block to body components
(`null` modelled as `[]`). -/
def convertBlock (block : Json) : List BodyComponent :=
  match block.getStr ("nodeType") with
  | some nt =>
    if nt = "paragraph" then
      let html := renderRichText (block.getArr ("content"))
      if jsTrim html = "" then [] else [.paragraph html .html]
    else if nt = "heading-2" then [.heading 2 (getPlainText block) .text]
    else if nt = "heading-3" then [.heading 3 (getPlainText block) .text]
    else if nt = "heading-4" then [.heading 4 (getPlainText block) .text]
    else if nt = "hr" then [.divider]
    else if nt = "unordered-list" then
      [.list .unordered (convertListItems block)]
    else if nt = "ordered-list" then
      [.list .ordered (convertListItems block)]
    else if nt = "blockquote" then
      [.blockquote (String.intercalate "\n"
        ((block.getArr ("content")).map getPlainText)) none]
    else if nt = "embedded-entry-block" then convertEmbeddedEntry block
    else []
  | none => []

def itvBuildBody (content : List Json) : List BodyComponent :=
  content.flatMap convertBlock

def wordOrSpaceChar (c : Char) : Bool :=
  c.isAlpha || c.isDigit || c = '_' || isSpaceChar c

/-- Case-insensitive prefix test. -/
def isCiPrefix (pat : String) (cs : List Char) : Bool :=
  pat.toList.isPrefixOf (cs.map Char.toLower)

/-- The optional lazy group `(?:[\w\s]+?Editor\s+)?` of the byline regex:
find the smallest `k ≥ 1` such that the first `k` characters are word or
space characters, `Editor` (case-insensitively) follows, then whitespace,
then a non-empty remainder; return that remainder. -/
def bylineEditorSplit (after : List Char) (k : Nat) : Option (List Char) :=
  if h : after.length < k then none
  else
    if (after.take k).all wordOrSpaceChar ∧
        isCiPrefix ("editor") (after.drop k) ∧
        (let rest2 := (after.drop k).drop 6
         let ws2 := rest2.takeWhile isSpaceChar
         ¬ ws2.isEmpty ∧ ¬ (rest2.drop ws2.length).isEmpty) then
      some (let rest2 := (after.drop k).drop 6
            rest2.drop ((rest2.takeWhile isSpaceChar).length))
    else bylineEditorSplit after (k + 1)
termination_by after.length + 1 - k

/-- `text.match(/^By\s+(?:[\w\s]+?Editor\s+)?(.+)/i)` — the captured group,
trimmed. -/
def bylineMatch (text : String) : Option String :=
  match text.toList with
  | b :: y :: rest =>
    if b.toLower = 'b' ∧ y.toLower = 'y' then
      let ws := rest.takeWhile isSpaceChar
      if ws.isEmpty then none
      else
        let after := rest.drop ws.length
        match bylineEditorSplit after 1 with
        | some captured => some (jsTrim (String.mk captured))
        | none =>
          if after.isEmpty then none
          else some (jsTrim (String.mk after))
    else none
  | _ => none

/-- `extractByline` — byline paragraph near the top of the body. -/
def extractByline (content : List Json) : Option String :=
  ((content.take 8).filterMap (fun block =>
    if block.getStr ("nodeType") = some ("paragraph") then
      bylineMatch (jsTrim (getPlainText block))
    else none)).head?

def itvBuildAuthors (article : Json) (jsonLd : Option Json) : List Author :=
  let content := (((article.get ("body")).bind
    (fun b => b.get ("content"))).bind Json.asArr).getD []
  match extractByline content with
  | some byline => [{ name := byline }]
  | none =>
    match jsonLd.bind (fun j => j.get ("author")) with
    | some (.arr items) =>
      items.map (fun auth => { name := (auth.getStr ("name")).getD ("Unknown") })
    | some a =>
      match a.getStr ("name") with
      | some n => if n ≠ "" ∧ n ≠ "ITV News" then [{ name := n }] else []
      | none => []
    | none => []

def itvBuildThumbnail (article : Json) (ogTags : List (String × String)) :
    Option ImageRef :=
  match article.get ("image") with
  | some img =>
    if img.truthyVal then
      some { url := (img.getStr ("url")).getD (""),
             altText := (img.getStr ("description")).orElse
               (fun _ => img.getStr ("caption")),
             width := img.getNum ("width"),
             height := img.getNum ("height") }
    else itvOgThumbnail ogTags
  | none => itvOgThumbnail ogTags
where
  itvOgThumbnail (ogTags : List (String × String)) : Option ImageRef :=
    match ogGet ogTags ("og:image") with
    | some u =>
      some { url := u,
             width := (ogGet ogTags ("og:image:width")).bind parseIntJs,
             height := (ogGet ogTags ("og:image:height")).bind parseIntJs }
    | none => none

def itvBuildMetadata (dateToIso : String → String) (now : String)
    (article : Json) (jsonLd : Option Json)
    (ogTags : List (String × String)) : Metadata :=
  let title := (((article.getStr ("title")).orElse
    (fun _ => jsonLd.bind (fun j => j.getStr ("headline")))).orElse
    (fun _ => ogGet ogTags ("og:title"))).getD ("Untitled")
  let publishedAt := ((article.getStr ("displayDate")).orElse
    (fun _ => jsonLd.bind (fun j => j.getStr ("datePublished")))).getD now
  let categories : Option (List String) := match article.get ("regions") with
    | some (.arr items) =>
      let cats := items.filterMap (fun r =>
        match r.getStr ("label") with
        | some l => if l ≠ "" then some l else none
        | none => none)
      some cats
    | _ => none
  let tags : Option (List String) := match article.get ("topics") with
    | some t =>
      if t.truthyVal then
        some (dedupFirst (((t.asArr).getD []).filterMap (fun tp =>
          match tp.getStr ("label") with
          | some l => if l ≠ "" then some l else none
          | none => none)))
      else none
    | none => none
  { title := title,
    subtitle := match article.getStr ("shortTitle") with
      | some st => if st ≠ title then some st else none
      | none => none,
    excerpt := ((article.getStr ("summary")).orElse
      (fun _ => jsonLd.bind (fun j => j.getStr ("description")))).orElse
      (fun _ => ogGet ogTags ("og:description")),
    language := ((ogGet ogTags ("og:locale")).map
      (fun l => replaceFirst l ("_") "-")).getD ("en-GB"),
    publishedAt := ensureIso dateToIso publishedAt,
    modifiedAt := match jsonLd.bind (fun j => j.get ("dateModified")) with
      | some v => if v.truthyVal then (v.asStr.map (ensureIso dateToIso)) else none
      | none => none,
    categories := match categories with
      | some cs => if cs.length > 0 then some cs else none
      | none => none,
    tags := match tags with
      | some ts => if ts.length > 0 then some ts else none
      | none => none,
    keywords := match jsonLdKeywords jsonLd with
      | some ks => if ks.length > 0 then some ks else none
      | none => none,
    sectionName := (jsonLd.bind (fun j => j.getStr ("articleSection"))).orElse
      (fun _ => ((article.getArr ("regions")).head?).bind
        (fun r => r.getStr ("label"))),
    thumbnail := itvBuildThumbnail article ogTags,
    urgency := if article.getStr ("label") = some ("breaking") then
        some .breaking
      else none }

/-- `parse` of the ITV News source — `parseArticle(html, url)` over the
loaded document `doc`; throws typed structural errors when the
`__NEXT_DATA__` anchor or the article payload is missing. -/
def itvParse (jsonParse : String → Option Json)
    (dateToIso : String → String) (now : String)
    (doc : List HNode) (url : String) : Except String Article :=
  match extractNextData jsonParse doc with
  | none => .error ("Could not find __NEXT_DATA__ in page")
  | some nextData =>
    let articleJ := ((nextData.get ("props")).bind
      (fun p => p.get ("pageProps"))).bind (fun p => p.get ("article"))
    match articleJ with
    | none => .error ("No article data found in __NEXT_DATA__")
    | some aj =>
      if ¬ aj.truthyVal then .error ("No article data found in __NEXT_DATA__")
      else
        let jsonLd := extractJsonLd jsonParse doc
        let ogTags := extractOgTags doc
        let canonical := ((findElem (fun n => n.tagName = "link" &&
            n.attr ("rel") = some ("canonical")) doc).bind
            (fun n => n.attr ("href"))).getD url
        let source : SourceInfo :=
          { url := url, canonicalUrl := some canonical,
            publisherId := "itv-news", cmsType := "contentful",
            ingestionMethod := .scrape }
        let content := (((aj.get ("body")).bind
          (fun b => b.get ("content"))).bind Json.asArr).getD []
        .ok { version := "1.0", extractedAt := now, source := source,
              metadata := itvBuildMetadata dateToIso now aj jsonLd ogTags,
              authors := itvBuildAuthors aj jsonLd,
              body := itvBuildBody content }

/-- `itvNewsSource.parseArticle(html, url)` — parse the raw HTML string. -/
def itvParseArticle (jsonParse : String → Option Json)
    (dateToIso : String → String) (now : String)
    (html : String) (url : String) : Except String Article :=
  itvParse jsonParse dateToIso now (parseFrag html) url

/-! ## Derived notions used by the theorems -/

/-- Concatenation of the strings produced from a list. -/
def concatMap (f : α → String) : List α → String
  | [] => ""
  | x :: xs => f x ++ concatMap f xs

/-- One table row rendered as header cells. -/
def thRow (row : List String) : String :=
  "<tr>" ++ concatMap (fun c => "<th>" ++ c ++ "</th>") row ++ "</tr>"

/-- One table row rendered as body cells. -/
def tdRow (row : List String) : String :=
  "<tr>" ++ concatMap (fun c => "<td>" ++ c ++ "</td>") row ++ "</tr>"

/-- The text-style names referenced by a target component (its `textStyle`
field, and the `textStyle` of a photo's caption descriptor). -/
def anfTextStyleRefs : AnfComponent → List String
  | .body _ _ ts _ => ts.toList
  | .heading _ _ _ ts _ => ts.toList
  | .quote _ _ ts _ => ts.toList
  | .pullquote _ _ ts _ => ts.toList
  | .photo _ cap _ _ =>
    match cap with
    | some (.desc _ _ (some ts)) => [ts]
    | _ => []
  | .video _ _ _ _ _ => []
  | .embedwebvideo _ _ _ _ => []
  | .tweet _ _ => []
  | .instagram _ _ => []
  | .facebookPost _ _ => []
  | .tiktok _ _ => []
  | .divider _ => []
  | .htmltable _ _ => []
  | .bannerAdvertisement _ _ => []

/-- The key set of the default style table. -/
def textStyleKeys : List String :=
  buildDefaultTextStyles.map Prod.fst

/- Raw-text occurrence check for the sanitizer idempotence analysis. -/
mutual

def containsRawTag : HNode → Bool
  | .text _ => false
  | .elem t _ cs => decide (t ∈ rawUnwrapTags) || containsRawList cs

def containsRawList : List HNode → Bool
  | [] => false
  | n :: rest => containsRawTag n || containsRawList rest

end

/-! ## Helper lemmas -/

theorem sanitizeList_append (xs ys : List HNode) :
    sanitizeList (xs ++ ys) = sanitizeList xs ++ sanitizeList ys := by
  induction xs with
  | nil => simp [sanitizeList]
  | cons n rest ih => simp [sanitizeList, ih]

theorem stripAttrs_idem (t : String) (a : List (String × String)) :
    stripAttrs t (stripAttrs t a) = stripAttrs t a := by
  unfold stripAttrs
  split
  · simp [List.filter_filter]
  · simp

/-- Core of the amended sanitizer idempotence: the bottom-up pass is
idempotent on forests free of raw-text elements. -/
theorem sanitizeList_idem (ns : List HNode)
    (h : containsRawList ns = false) :
    sanitizeList (sanitizeList ns) = sanitizeList ns := by
  match ns with
  | [] => simp [sanitizeList]
  | n :: rest =>
    have hn : containsRawTag n = false := by
      simp [containsRawList, Bool.or_eq_false_iff] at h
      exact h.1
    have hrest : containsRawList rest = false := by
      simp [containsRawList, Bool.or_eq_false_iff] at h
      exact h.2
    have hrest' := sanitizeList_idem rest hrest
    have hnode : sanitizeList (sanitizeNode n) = sanitizeNode n := by
      match n with
      | .text s => simp [sanitizeNode, sanitizeList]
      | .elem t attrs cs =>
        have hcs : containsRawList cs = false := by
          simp [containsRawTag, Bool.or_eq_false_iff] at hn
          exact hn.2
        have hraw : ¬ t ∈ rawUnwrapTags := by
          simp [containsRawTag, Bool.or_eq_false_iff] at hn
          exact hn.1
        have hcs' := sanitizeList_idem cs hcs
        by_cases hscript : t = "script" ∨ t = "style"
        · have e1 : sanitizeNode (.elem t attrs cs) = [.elem t attrs cs] := by
            simp only [sanitizeNode]
            rw [if_pos hscript]
          rw [e1]
          simp [sanitizeList, e1]
        · cases hsub : substFor t with
          | some sub =>
            have hsubval : sub = "b" ∨ sub = "em" := by
              unfold substFor at hsub
              cases hfind : TAG_SUBSTITUTIONS.find? (fun p => p.1 = t) with
              | none => rw [hfind] at hsub; simp at hsub
              | some p =>
                rw [hfind] at hsub
                simp only [Option.map_some', Option.some.injEq] at hsub
                have hmem := List.mem_of_find?_eq_some hfind
                simp only [TAG_SUBSTITUTIONS, List.mem_cons,
                  List.mem_singleton, List.not_mem_nil, or_false] at hmem
                rcases hmem with h | h | h | h <;>
                  (rw [h] at hsub; rw [← hsub]; simp)
            have hsubnotscript : ¬ (sub = "script" ∨ sub = "style") := by
              rcases hsubval with h | h <;> simp [h]
            have hsubnone : substFor sub = none := by
              rcases hsubval with h | h <;>
                (rw [h]; rfl)
            have hsuballowed : sub ∈ ALLOWED_TAGS := by
              rcases hsubval with h | h <;> (rw [h]; decide)
            have e1 : sanitizeNode (.elem t attrs cs)
                = [.elem sub [] (sanitizeList cs)] := by
              simp only [sanitizeNode]
              rw [if_neg hscript, hsub]
            rw [e1]
            have e2 : sanitizeNode (.elem sub [] (sanitizeList cs))
                = [.elem sub (stripAttrs sub []) (sanitizeList (sanitizeList cs))] := by
              simp only [sanitizeNode]
              rw [if_neg hsubnotscript, hsubnone]
              rw [if_pos hsuballowed]
            have e3 : stripAttrs sub ([] : List (String × String)) = [] := by
              unfold stripAttrs; split <;> simp
            simp [sanitizeList, e2, e3, hcs']
          | none =>
            by_cases hallow : t ∈ ALLOWED_TAGS
            · have e1 : sanitizeNode (.elem t attrs cs)
                  = [.elem t (stripAttrs t attrs) (sanitizeList cs)] := by
                simp only [sanitizeNode]
                rw [if_neg hscript, hsub, if_pos hallow]
              rw [e1]
              have e2 : sanitizeNode (.elem t (stripAttrs t attrs)
                    (sanitizeList cs))
                  = [.elem t (stripAttrs t (stripAttrs t attrs))
                      (sanitizeList (sanitizeList cs))] := by
                simp only [sanitizeNode]
                rw [if_neg hscript, hsub, if_pos hallow]
              simp [sanitizeList, e2, stripAttrs_idem, hcs']
            · have e1 : sanitizeNode (.elem t attrs cs) = sanitizeList cs := by
                simp only [sanitizeNode]
                rw [if_neg hscript, hsub, if_neg hallow, if_neg hraw]
              rw [e1]
              exact hcs'
    calc sanitizeList (sanitizeList (n :: rest))
        = sanitizeList (sanitizeNode n ++ sanitizeList rest) := by
          simp [sanitizeList]
      _ = sanitizeList (sanitizeNode n) ++ sanitizeList (sanitizeList rest) :=
          sanitizeList_append _ _
      _ = sanitizeNode n ++ sanitizeList rest := by rw [hnode, hrest']
      _ = sanitizeList (n :: rest) := by simp [sanitizeList]
termination_by sizeOf ns
decreasing_by
  · simp only [List.cons.sizeOf_spec]; omega
  · simp only [List.cons.sizeOf_spec, HNode.elem.sizeOf_spec]; omega

theorem foldl_th (row : List String) (init : String) :
    row.foldl (fun a cell => a ++ "<th>" ++ cell ++ "</th>") init
      = init ++ concatMap (fun c => "<th>" ++ c ++ "</th>") row := by
  induction row generalizing init with
  | nil => simp [concatMap]
  | cons c cs ih =>
    rw [List.foldl_cons, ih]
    simp [concatMap, String.append_assoc]

theorem foldl_td (row : List String) (init : String) :
    row.foldl (fun a cell => a ++ "<td>" ++ cell ++ "</td>") init
      = init ++ concatMap (fun c => "<td>" ++ c ++ "</td>") row := by
  induction row generalizing init with
  | nil => simp [concatMap]
  | cons c cs ih =>
    rw [List.foldl_cons, ih]
    simp [concatMap, String.append_assoc]

theorem foldl_thRows (rows : List (List String)) (init : String) :
    rows.foldl (fun acc row =>
        acc ++ "<tr>" ++
          row.foldl (fun a cell => a ++ "<th>" ++ cell ++ "</th>") "" ++
        "</tr>") init
      = init ++ concatMap thRow rows := by
  induction rows generalizing init with
  | nil => simp [concatMap]
  | cons r rs ih =>
    rw [List.foldl_cons, ih, foldl_th]
    simp [concatMap, thRow, String.append_assoc]

theorem foldl_tdRows (rows : List (List String)) (init : String) :
    rows.foldl (fun acc row =>
        acc ++ "<tr>" ++
          row.foldl (fun a cell => a ++ "<td>" ++ cell ++ "</td>") "" ++
        "</tr>") init
      = init ++ concatMap tdRow rows := by
  induction rows generalizing init with
  | nil => simp [concatMap]
  | cons r rs ih =>
    rw [List.foldl_cons, ih, foldl_td]
    simp [concatMap, tdRow, String.append_assoc]

/-! ## Claims -/

/-- Claim C5: `transformComponent` is total over the closed 14-variant
union (it is a total Lean function by construction, so it never throws),
and whenever it returns a `null` result the warnings list is non-empty. -/
theorem transformComponent_null_implies_warning (c : BodyComponent)
    (h : (transformComponent c).result = none) :
    1 ≤ (transformComponent c).warnings.length := by
  cases c with
  | paragraph text format =>
    simp [transformComponent, transformParagraph] at h
  | heading level text format =>
    simp [transformComponent, transformHeading] at h
  | blockquote text attribution =>
    simp [transformComponent, transformBlockquote, ok] at h
  | pullquote text attribution =>
    simp [transformComponent, transformPullquote, ok] at h
  | list style items => simp [transformComponent, transformList, ok] at h
  | codeBlock code language =>
    simp [transformComponent, transformCodeBlock, ok] at h
  | preformatted text =>
    simp [transformComponent, transformPreformatted, ok] at h
  | image url caption credit altText w hgt mr =>
    simp [transformComponent, transformImage, ok] at h
  | video url thumbnailUrl caption credit duration =>
    simp [transformComponent, transformVideo, ok] at h
  | embed platform embedUrl caption fallbackText =>
    simp only [transformComponent, transformEmbed] at h
    split_ifs at h <;> simp [ok] at h
  | divider => simp [transformComponent, ok] at h
  | table rows headerRows => simp [transformComponent, transformTable, ok] at h
  | rawHtml html => simp [transformComponent]
  | adPlacement slot => simp [transformComponent, ok] at h

/-- Witness for C5 at the one variant with a `null` result. -/
theorem transformComponent_null_implies_warning_witness :
    (transformComponent (.rawHtml ("<div>w</div>"))).result = none ∧
    1 ≤ (transformComponent (.rawHtml ("<div>w</div>"))).warnings.length :=
  ⟨rfl, transformComponent_null_implies_warning (.rawHtml ("<div>w</div>")) rfl⟩

/-- Claim C8: a table renders the first `headerRows` rows inside `<thead>`
with `<th>` cells and the remaining rows inside `<tbody>` with `<td>`
cells; when `headerRows` is 0 or absent the `<thead>` element is omitted
entirely; the claim's example `[["Name","Age"],["Alice","30"]]` with
`headerRows = 1` produces `<thead>` with one `<tr>` of `<th>` cells
followed by `<tbody>` with one `<tr>` of `<td>` cells. -/
theorem transformTable_renders_thead_tbody :
    (∀ (rows : List (List String)) (hr : Option Nat),
      transformComponent (.table rows hr)
        = ok (.htmltable
            ("<table>" ++
              (if 0 < (rows.take (hr.getD 0)).length then
                "<thead>" ++ concatMap thRow (rows.take (hr.getD 0)) ++ "</thead>"
               else ("")) ++
              "<tbody>" ++ concatMap tdRow (rows.drop (hr.getD 0)) ++
              "</tbody></table>")
            none)) ∧
    (∀ (rows : List (List String)),
      transformComponent (.table rows none)
        = ok (.htmltable
            ("<table><tbody>" ++ concatMap tdRow rows ++ "</tbody></table>")
            none) ∧
      transformComponent (.table rows (some 0))
        = ok (.htmltable
            ("<table><tbody>" ++ concatMap tdRow rows ++ "</tbody></table>")
            none)) ∧
    transformComponent (.table [["Name", "Age"], ["Alice", "30"]] (some 1))
      = ok (.htmltable
          ("<table><thead><tr><th>Name</th><th>Age</th></tr></thead>"
            ++ "<tbody><tr><td>Alice</td><td>30</td></tr></tbody></table>")
          none) := by
  have main : ∀ (rows : List (List String)) (hr : Option Nat),
      transformComponent (.table rows hr)
        = ok (.htmltable
            ("<table>" ++
              (if 0 < (rows.take (hr.getD 0)).length then
                "<thead>" ++ concatMap thRow (rows.take (hr.getD 0)) ++ "</thead>"
               else ("")) ++
              "<tbody>" ++ concatMap tdRow (rows.drop (hr.getD 0)) ++
              "</tbody></table>")
            none) := by
    intro rows hr
    simp only [transformComponent, transformTable]
    rw [foldl_thRows, foldl_tdRows]
    by_cases hpos : 0 < (rows.take (hr.getD 0)).length
    · rw [if_pos hpos, if_pos hpos]
      simp only [String.append_assoc, String.empty_append, String.append_empty]
    · rw [if_neg hpos, if_neg hpos]
      simp only [String.append_assoc, String.empty_append, String.append_empty]
  refine ⟨main, fun rows => ⟨?_, ?_⟩, ?_⟩
  · rw [main]; simp
  · rw [main]; simp
  · decide

/-- Claim C9 counterexample: an `embed` with platform `other` whose
`fallbackText` is present but empty (`some ("")`) does not produce body text
equal to the fallback text — the code's truthiness check treats `""` as
absent and renders the anchor fallback with `format = html` instead. -/
theorem transformEmbed_present_empty_fallback_not_used :
    (transformComponent
        (.embed .other ("https://example.com/w") none (some ("")))).result
      ≠ some (.body ("") none (some ("default-body")) none) ∧
    transformComponent (.embed .other ("https://example.com/w") none (some ("")))
      = { result := some (.body
            ("<a href=\"https://example.com/w\">https://example.com/w</a>")
            (some .html) (some ("default-body")) none),
          warnings := [{ kind := .unsupported_embed,
                         message := "Unsupported embed platform \"other\" — rendered as body text fallback",
                         component := some ("embed") }] } := by
  constructor
  · decide
  · decide

/-- Claim C9 (amended): for an embed with platform `other`, when
`fallbackText` is absent or empty the body text is an HTML anchor whose
href and link text are both the embed URL with `format = html`; when
`fallbackText` is present and non-empty the body text is the fallback text
with no format field; in both cases exactly one `unsupported_embed`
warning is emitted. -/
theorem transformEmbed_other_fallback (url : String)
    (cap fb : Option String) :
    ((fb = none ∨ fb = some ("")) →
      transformComponent (.embed .other url cap fb)
        = { result := some (.body
              ("<a href=\"" ++ url ++ "\">" ++ url ++ "</a>")
              (some .html) (some ("default-body")) none),
            warnings := [{ kind := .unsupported_embed,
                           message := "Unsupported embed platform \"other\" — rendered as body text fallback",
                           component := some ("embed") }] }) ∧
    (∀ s, fb = some s → s ≠ "" →
      transformComponent (.embed .other url cap fb)
        = { result := some (.body s none (some ("default-body")) none),
            warnings := [{ kind := .unsupported_embed,
                           message := "Unsupported embed platform \"other\" — rendered as body text fallback",
                           component := some ("embed") }] }) := by
  constructor
  · intro hfb
    have hfalse : truthy fb = false := by
      rcases hfb with h | h <;> simp [h, truthy]
    simp only [transformComponent, transformEmbed]
    rw [if_neg (by decide : ¬ (EmbedPlatform.other ∈ VIDEO_EMBED_PLATFORMS))]
    rw [if_neg (by decide : ¬ (EmbedPlatform.other = EmbedPlatform.x))]
    rw [if_neg (by decide : ¬ (EmbedPlatform.other = EmbedPlatform.instagram))]
    rw [if_neg (by decide : ¬ (EmbedPlatform.other = EmbedPlatform.facebook))]
    rw [if_neg (by decide : ¬ (EmbedPlatform.other = EmbedPlatform.tiktok))]
    simp [hfalse, EmbedPlatform.toStr]
  · intro s hs hne
    have htrue : truthy fb = true := by simp [hs, truthy, hne]
    simp only [transformComponent, transformEmbed]
    rw [if_neg (by decide : ¬ (EmbedPlatform.other ∈ VIDEO_EMBED_PLATFORMS))]
    rw [if_neg (by decide : ¬ (EmbedPlatform.other = EmbedPlatform.x))]
    rw [if_neg (by decide : ¬ (EmbedPlatform.other = EmbedPlatform.instagram))]
    rw [if_neg (by decide : ¬ (EmbedPlatform.other = EmbedPlatform.facebook))]
    rw [if_neg (by decide : ¬ (EmbedPlatform.other = EmbedPlatform.tiktok))]
    simp [htrue, hs, EmbedPlatform.toStr]
    simp [truthy, hne]

theorem assemble_foldl (body : List BodyComponent)
    (acc : List AnfComponent × List TransformWarning) :
    body.foldl assembleStep acc
      = (acc.1 ++ body.filterMap
          (fun bc => (transformComponent bc).result.map assignLayout),
         acc.2 ++ body.flatMap
          (fun bc => (transformComponent bc).warnings)) := by
  induction body generalizing acc with
  | nil => simp
  | cons bc rest ih =>
    rw [List.foldl_cons, ih]
    unfold assembleStep
    cases hres : (transformComponent bc).result with
    | none => simp [hres]
    | some r => simp [hres]

/-- The optional header photo that `assembleDocument` puts first. -/
def headerPhoto (article : Article) : List AnfComponent :=
  match article.metadata.thumbnail with
  | some thumb =>
    if thumb.url ≠ "" then
      [AnfComponent.photo thumb.url none
        (if truthy thumb.altText then thumb.altText else none)
        (some ("headerPhotoLayout"))]
    else []
  | none => []

theorem assembleDocument_parts (article : Article) :
    (assembleDocument article).document.components
      = headerPhoto article
        ++ article.body.filterMap
            (fun bc => (transformComponent bc).result.map assignLayout) ∧
    (assembleDocument article).warnings
      = article.body.flatMap (fun bc => (transformComponent bc).warnings) := by
  unfold assembleDocument headerPhoto
  rw [assemble_foldl]
  by_cases hsub : truthy article.metadata.subtitle
  · simp [hsub]
  · simp [hsub]

/-- Claim C6: `assembleDocument` runs the body components through
`transformComponent` in their original order, skips `null` results (array
results cannot occur: the transformer's result type is a single optional
component, so flattening is vacuous), assigns each surviving component its
layout reference, and concatenates all warnings in the same order — hence
the body-derived components appear after the optional header photo in the
same relative order as their source components. -/
theorem assembleDocument_order (article : Article) :
    (assembleDocument article).document.components
      = headerPhoto article
        ++ article.body.filterMap
            (fun bc => (transformComponent bc).result.map assignLayout) ∧
    (assembleDocument article).warnings
      = article.body.flatMap (fun bc => (transformComponent bc).warnings) :=
  assembleDocument_parts article

/-- Claim C7: the derived identifier is the publisher id joined by `-` to
the last non-empty path segment of the URL, truncated to 64 characters;
every identifier has length at most 64; for publisher id `404-media` and a
canonical URL ending in `/test-article/` the identifier is
`404-media-test-article`; and the assembled document's identifier is
derived from the canonical URL, or the source URL when no canonical URL
exists. -/
theorem buildIdentifier_spec :
    (∀ (p u : String), (buildIdentifier p u).length ≤ 64) ∧
    (∀ (p u pathname seg : String),
      urlPathname u = some pathname →
      (((splitOnChar '/' pathname)).filter (fun s => s ≠ "")).getLast?
        = some seg →
      buildIdentifier p u = jsSlice (p ++ "-" ++ seg) 64) ∧
    buildIdentifier ("404-media") "https://www.404media.co/test-article/"
      = "404-media-test-article" ∧
    (∀ article : Article,
      (assembleDocument article).document.identifier
        = buildIdentifier article.source.publisherId
            (article.source.canonicalUrl.getD article.source.url)) := by
  refine ⟨?_, ?_, by decide, ?_⟩
  · intro p u
    show (String.mk ((p ++ "-" ++ extractSlug u).toList.take 64)).length ≤ 64
    have : ∀ l : List Char, (String.mk l).length = l.length := fun l => rfl
    rw [this, List.length_take]
    omega
  · intro p u pathname seg hpath hseg
    have hslug : extractSlug u = seg := by
      unfold extractSlug
      rw [hpath]
      show ((splitOnChar '/' pathname).filter
        (fun s => s ≠ "")).getLast?.getD ("article") = seg
      rw [hseg]
      rfl
    unfold buildIdentifier
    rw [hslug]
  · intro article
    unfold assembleDocument
    by_cases hsub : truthy article.metadata.subtitle
    · simp [hsub]
    · simp [hsub]

/-- Witness for C7 at the claim's concrete example. -/
theorem buildIdentifier_spec_witness :
    urlPathname ("https://www.404media.co/test-article/")
        = some ("/test-article/") ∧
    (((splitOnChar '/' ("/test-article/"))).filter (fun s => s ≠ "")).getLast?
        = some ("test-article") ∧
    buildIdentifier ("404-media") "https://www.404media.co/test-article/"
        = jsSlice ("404-media" ++ "-" ++ "test-article") 64 ∧
    (buildIdentifier ("404-media")
        "https://www.404media.co/test-article/").length ≤ 64 :=
  ⟨by decide, by decide,
   buildIdentifier_spec.2.1 ("404-media")
     "https://www.404media.co/test-article/" "/test-article/" "test-article"
     (by decide) (by decide),
   buildIdentifier_spec.1 ("404-media") "https://www.404media.co/test-article/"⟩

/-- Claim C10: every text-style name referenced by a component produced by
`transformComponent` — including headings with out-of-range levels, which
are clamped to 1..6 — is a key of the fixed default style table built by
`buildDefaultTextStyles`, so an assembled document never references an
undefined text style. -/
theorem transform_textstyles_in_default_table (c : BodyComponent)
    (r : AnfComponent) (s : String)
    (h1 : (transformComponent c).result = some r)
    (h2 : s ∈ anfTextStyleRefs r) : s ∈ textStyleKeys := by
  cases c with
  | paragraph text format =>
    simp only [transformComponent, transformParagraph,
      Option.some.injEq] at h1
    subst h1
    simp [anfTextStyleRefs] at h2
    subst h2
    decide
  | heading level text format =>
    simp only [transformComponent, transformHeading,
      Option.some.injEq] at h1
    subst h1
    simp [anfTextStyleRefs] at h2
    subst h2
    have hl : max 1 (min 6 level) = 1 ∨ max 1 (min 6 level) = 2 ∨
        max 1 (min 6 level) = 3 ∨ max 1 (min 6 level) = 4 ∨
        max 1 (min 6 level) = 5 ∨ max 1 (min 6 level) = 6 := by omega
    rcases hl with h | h | h | h | h | h <;> (rw [h]; decide)
  | blockquote text attribution =>
    simp only [transformComponent, transformBlockquote, ok,
      Option.some.injEq] at h1
    subst h1
    simp [anfTextStyleRefs] at h2
    subst h2
    decide
  | pullquote text attribution =>
    simp only [transformComponent, transformPullquote, ok,
      Option.some.injEq] at h1
    subst h1
    simp [anfTextStyleRefs] at h2
    subst h2
    decide
  | list style items =>
    simp only [transformComponent, transformList, ok,
      Option.some.injEq] at h1
    subst h1
    simp [anfTextStyleRefs] at h2
    subst h2
    decide
  | codeBlock code language =>
    simp only [transformComponent, transformCodeBlock, ok,
      Option.some.injEq] at h1
    subst h1
    simp [anfTextStyleRefs] at h2
    subst h2
    decide
  | preformatted text =>
    simp only [transformComponent, transformPreformatted, ok,
      Option.some.injEq] at h1
    subst h1
    simp [anfTextStyleRefs] at h2
    subst h2
    decide
  | image url caption credit altText w hgt mr =>
    simp only [transformComponent, transformImage, ok,
      Option.some.injEq] at h1
    split_ifs at h1 <;>
      (subst h1; simp [anfTextStyleRefs] at h2; try subst h2) <;> decide
  | video url thumbnailUrl caption credit duration =>
    simp only [transformComponent, transformVideo, ok,
      Option.some.injEq] at h1
    subst h1
    simp [anfTextStyleRefs] at h2
  | embed platform embedUrl caption fallbackText =>
    simp only [transformComponent, transformEmbed, ok] at h1
    split_ifs at h1 <;>
      (simp only [Option.some.injEq] at h1; subst h1;
       simp [anfTextStyleRefs] at h2) <;>
      (subst h2; decide)
  | divider =>
    simp only [transformComponent, ok, Option.some.injEq] at h1
    subst h1
    simp [anfTextStyleRefs] at h2
  | table rows headerRows =>
    simp only [transformComponent, transformTable, ok,
      Option.some.injEq] at h1
    subst h1
    simp [anfTextStyleRefs] at h2
  | rawHtml html => simp [transformComponent] at h1
  | adPlacement slot =>
    simp only [transformComponent, ok, Option.some.injEq] at h1
    subst h1
    simp [anfTextStyleRefs] at h2

/-- Witness for C10 at an out-of-range heading level. -/
theorem transform_textstyles_in_default_table_witness :
    (transformComponent (.heading 99 ("Deep") .text)).result
      = some (.heading 6 ("Deep") none (some ("default-heading-6")) none) ∧
    "default-heading-6" ∈ textStyleKeys :=
  ⟨by decide,
   transform_textstyles_in_default_table (.heading 99 ("Deep") .text)
     (.heading 6 ("Deep") none (some ("default-heading-6")) none)
     "default-heading-6" (by decide) (by decide)⟩

/-- Witness for the amended C9 at concrete inputs. -/
theorem transformEmbed_other_fallback_witness :
    (transformComponent (.embed .other ("https://e.co/x") none none)).result
      = some (.body ("<a href=\"https://e.co/x\">https://e.co/x</a>")
          (some .html) (some ("default-body")) none) ∧
    (transformComponent
        (.embed .other ("https://e.co/x") none (some ("See it")))).result
      = some (.body ("See it") none (some ("default-body")) none) := by
  constructor
  · rw [(transformEmbed_other_fallback ("https://e.co/x") none none).1
      (Or.inl rfl)]
    decide
  · rw [(transformEmbed_other_fallback ("https://e.co/x") none
      (some ("See it"))).2 ("See it") rfl (by decide)]

/-! ## Demonstration articles for the concrete claims -/

/-- An otherwise-valid article whose body is exactly one `rawHtml`
component and whose metadata has a thumbnail. -/
def articleRawHtmlWithThumb : Article :=
  { version := "1.0", extractedAt := "2026-02-17T12:00:00Z",
    source := { url := "https://www.404media.co/test-article/",
                canonicalUrl := some ("https://www.404media.co/test-article/"),
                publisherId := "404-media", cmsType := "ghost",
                ingestionMethod := .scrape },
    metadata := { title := "Test Article Title", language := "en",
                  publishedAt := "2026-02-17T10:00:00Z",
                  thumbnail := some { url := "https://example.com/thumb.jpg",
                                      altText := some ("Thumbnail") } },
    authors := [{ name := "Alice Smith" }],
    body := [.rawHtml ("<div>only raw</div>")] }

/-- The same article with the thumbnail deleted. -/
def articleRawHtmlNoThumb : Article :=
  { articleRawHtmlWithThumb with
    metadata := { articleRawHtmlWithThumb.metadata with thumbnail := none } }

/-- An article whose thumbnail is present but has an empty `url`. -/
def articleEmptyThumbUrl : Article :=
  { articleRawHtmlWithThumb with
    metadata := { articleRawHtmlWithThumb.metadata with
                  thumbnail := some { url := "" } },
    body := [.paragraph ("Hi") .text] }

/-- The dropped-`rawHtml` warning record. -/
def droppedRawHtmlWarning : TransformWarning :=
  { kind := .dropped_component,
    message := "rawHtml component dropped — not supported in ANF",
    component := some ("rawHtml") }

theorem length_filterMap_map (g : α → Option β) (f : β → γ) (l : List α) :
    (l.filterMap (fun a => (g a).map f)).length
      = (l.filterMap g).length := by
  induction l with
  | nil => rfl
  | cons a rest ih =>
    cases hg : g a <;> simp [List.filterMap_cons, hg, ih]

theorem validateAnfDocument_empty_components {d : AnfArticleDocument}
    (h : d.components = []) :
    (validateAnfDocument d).toOption = none := by
  unfold validateAnfDocument
  split_ifs <;> first
    | rfl
    | (exfalso; simp_all)

theorem transformToAnf_toOption (article : Article) :
    (transformToAnf article).toOption
      = (validateAnfDocument
          (assembleDocument article).document).toOption.map
          (fun _ => assembleDocument article) := by
  unfold transformToAnf
  cases hv : validateAnfDocument (assembleDocument article).document <;>
    simp [hv, Except.toOption]

/-- Claim C1 counterexample: an article whose body is exactly one `rawHtml`
component but whose metadata carries a thumbnail does NOT fail target
validation — the header photo keeps `components` non-empty, so the caller
receives a document together with the `dropped_component` warning (the
code's own test deletes the thumbnail before asserting the throw). -/
theorem transformToAnf_rawHtml_with_thumbnail_succeeds :
    articleRawHtmlWithThumb.body = [.rawHtml ("<div>only raw</div>")] ∧
    (transformToAnf articleRawHtmlWithThumb).toOption ≠ none ∧
    (transformToAnf articleRawHtmlWithThumb).toOption.map
        AssembleResult.warnings
      = some [droppedRawHtmlWarning] := by
  refine ⟨rfl, ?_, ?_⟩
  · decide
  · decide

/-- Claim C1 (amended): for every article whose body is exactly one
`rawHtml` component and whose metadata has no (truthy) thumbnail URL, the
assembled components array is empty, the `dropped_component` warning was
produced by assembly (before validation runs), and `transformToAnf` fails
target validation, so the caller receives a hard error rather than a
document with warnings. -/
theorem transformToAnf_rawHtml_no_thumbnail_fails (article : Article)
    (s : String) (h1 : article.body = [.rawHtml s])
    (h2 : ((article.metadata.thumbnail.map ImageRef.url).getD ("")) = "") :
    (assembleDocument article).document.components = [] ∧
    (assembleDocument article).warnings = [droppedRawHtmlWarning] ∧
    (transformToAnf article).toOption = none := by
  have hheader : headerPhoto article = [] := by
    unfold headerPhoto
    cases hth : article.metadata.thumbnail with
    | none => rfl
    | some t =>
      rw [hth] at h2
      simp at h2
      simp [h2]
  have hparts := assembleDocument_parts article
  have hcomp : (assembleDocument article).document.components = [] := by
    rw [hparts.1, hheader, h1]
    simp [transformComponent]
  refine ⟨hcomp, ?_, ?_⟩
  · rw [hparts.2, h1]
    simp [transformComponent, droppedRawHtmlWarning]
  · rw [transformToAnf_toOption,
      validateAnfDocument_empty_components hcomp]
    rfl

/-- Witness for the amended C1 at a concrete article. -/
theorem transformToAnf_rawHtml_no_thumbnail_fails_witness :
    articleRawHtmlNoThumb.body = [.rawHtml ("<div>only raw</div>")] ∧
    articleRawHtmlNoThumb.metadata.thumbnail = none ∧
    ((assembleDocument articleRawHtmlNoThumb).document.components = [] ∧
     (assembleDocument articleRawHtmlNoThumb).warnings
        = [droppedRawHtmlWarning] ∧
     (transformToAnf articleRawHtmlNoThumb).toOption = none) :=
  ⟨rfl, rfl,
   transformToAnf_rawHtml_no_thumbnail_fails articleRawHtmlNoThumb
     ("<div>only raw</div>") rfl rfl⟩

/-- Claim C3 counterexample: an article whose `metadata.thumbnail.url`
field is present but empty gets NO header photo component — the code's
truthiness check `article.metadata.thumbnail?.url` treats `""` as absent,
so the claim fails for this thumbnail. -/
theorem assembleDocument_empty_thumb_url_no_header :
    articleEmptyThumbUrl.metadata.thumbnail
      = some { url := "", altText := none, width := none, height := none } ∧
    (assembleDocument articleEmptyThumbUrl).document.components
      = [.body ("Hi") none (some ("default-body")) (some ("bodyLayout"))] := by
  refine ⟨rfl, ?_⟩
  decide

/-- Claim C3 (amended): when `metadata.thumbnail` is present with a
non-empty URL, `assembleDocument` inserts a photo component with that URL
and layout `headerPhotoLayout` as the first element, before every
body-derived component; when the thumbnail is absent (or its URL empty) no
such component is inserted, and only then does the components length equal
the number of non-null body transforms. -/
theorem assembleDocument_header_photo_rule (article : Article) :
    (∀ t, article.metadata.thumbnail = some t → t.url ≠ "" →
      (assembleDocument article).document.components
        = .photo t.url none
            (if truthy t.altText then t.altText else none)
            (some ("headerPhotoLayout"))
          :: article.body.filterMap
              (fun bc => (transformComponent bc).result.map assignLayout) ∧
      (assembleDocument article).document.components.length
        = 1 + (article.body.filterMap
            (fun bc => (transformComponent bc).result)).length) ∧
    (((article.metadata.thumbnail.map ImageRef.url).getD ("")) = "" →
      (assembleDocument article).document.components
        = article.body.filterMap
            (fun bc => (transformComponent bc).result.map assignLayout) ∧
      (assembleDocument article).document.components.length
        = (article.body.filterMap
            (fun bc => (transformComponent bc).result)).length) := by
  have hparts := assembleDocument_parts article
  constructor
  · intro t hth hurl
    have hheader : headerPhoto article
        = [.photo t.url none
            (if truthy t.altText then t.altText else none)
            (some ("headerPhotoLayout"))] := by
      unfold headerPhoto
      rw [hth]
      simp [hurl]
    constructor
    · rw [hparts.1, hheader]
      rfl
    · rw [hparts.1, hheader]
      simp [length_filterMap_map]
      omega
  · intro hempty
    have hheader : headerPhoto article = [] := by
      unfold headerPhoto
      cases hth : article.metadata.thumbnail with
      | none => rfl
      | some t =>
        rw [hth] at hempty
        simp at hempty
        simp [hempty]
    constructor
    · rw [hparts.1, hheader]
      rfl
    · rw [hparts.1, hheader]
      simp [length_filterMap_map]

/-- Witness for the amended C3 at concrete articles (with a truthy
thumbnail, and with an empty-URL thumbnail). -/
theorem assembleDocument_header_photo_rule_witness :
    ((assembleDocument articleRawHtmlWithThumb).document.components
      = [.photo ("https://example.com/thumb.jpg") none (some ("Thumbnail"))
          (some ("headerPhotoLayout"))]) ∧
    ((assembleDocument articleEmptyThumbUrl).document.components.length
      = (articleEmptyThumbUrl.body.filterMap
          (fun bc => (transformComponent bc).result)).length) := by
  constructor
  · have h := ((assembleDocument_header_photo_rule
      articleRawHtmlWithThumb).1
        { url := "https://example.com/thumb.jpg",
          altText := some ("Thumbnail") } rfl (by decide)).1
    rw [h]
    decide
  · exact ((assembleDocument_header_photo_rule articleEmptyThumbUrl).2
      rfl).2

/-- Claim C4 counterexample: the sanitizer is not idempotent.  Unwrapping
the raw-text element `iframe` re-parses its literal text content as fresh
markup that the snapshot loop never visits, so a `div` survives the first
pass and only the second pass removes it. -/
theorem sanitizeHtml_not_idempotent :
    sanitizeHtml (sanitizeHtml ("<iframe><div>x</div></iframe>"))
      ≠ sanitizeHtml ("<iframe><div>x</div></iframe>") ∧
    sanitizeHtml ("<iframe><div>x</div></iframe>") = "<div>x</div>" ∧
    sanitizeHtml ("<div>x</div>") = "x" := by
  refine ⟨?_, ?_, ?_⟩ <;> decide

/-- Claim C4 (amended): the sanitizer's rewriting pass is idempotent on
every parsed document that contains no raw-text element (`iframe`, `xmp`,
`noscript`, `noembed`, `noframes`); only the raw-text unwrapping path,
which re-parses literal text as markup, breaks idempotence. -/
theorem sanitize_idempotent_without_rawtext (ns : List HNode)
    (h : containsRawList ns = false) :
    sanitizeList (sanitizeList ns) = sanitizeList ns :=
  sanitizeList_idem ns h

/-- Witness for the amended C4 on a parsed fragment. -/
theorem sanitize_idempotent_without_rawtext_witness :
    containsRawList (parseFrag ("<p><span>a</span><u>b</u></p>")) = false ∧
    sanitizeList (sanitizeList (parseFrag ("<p><span>a</span><u>b</u></p>")))
      = sanitizeList (parseFrag ("<p><span>a</span><u>b</u></p>")) :=
  ⟨by decide,
   sanitize_idempotent_without_rawtext
     (parseFrag ("<p><span>a</span><u>b</u></p>")) (by decide)⟩

/-- Claim C2 counterexample: the Ghost parser does not throw when the
required content container is absent — for an input with no content
container, no `article` element, no JSON-LD and no OG tags, it returns a
document with an empty body and the default title `Untitled`. -/
theorem ghostParse_missing_container_returns_empty_body :
    (ghostParseArticle (fun _ => none) (fun s => s) "2026-02-17T12:00:00Z"
        ("<p>hi</p>") ("https://www.404media.co/some-article/")).toOption.map
        (fun a => (a.body, a.metadata.title))
      = some ([], "Untitled") := by
  decide

/-- Claim C2 (amended): the ITV News parser throws its typed structural
error whenever the `__NEXT_DATA__` anchor is absent, but the Ghost parser
does not throw when its content container is absent — it falls back to the
`article` tag and, when that is also missing, returns a document whose
body is empty. -/
theorem parser_anchor_behavior :
    (∀ (jp : String → Option Json) (ei : String → String) (now : String)
        (doc : List HNode) (url : String),
      findElem (fun n => n.attr ("id") = some ("__NEXT_DATA__")) doc = none →
      itvParse jp ei now doc url
        = .error ("Could not find __NEXT_DATA__ in page")) ∧
    (∀ (jp : String → Option Json) (ei : String → String) (now : String)
        (doc : List HNode) (url : String),
      matches404media url = true →
      findContentRoot doc = [] →
      (ghostParse jp ei now doc url).toOption.map Article.body
        = some []) := by
  constructor
  · intro jp ei now doc url h
    unfold itvParse extractNextData
    rw [h]
  · intro jp ei now doc url hmatch hroot
    have hbody : ghostBuildBody doc = [] := by
      unfold ghostBuildBody
      rw [hroot]
      rfl
    unfold ghostParse ghostResolvePublisher
    rw [if_pos hmatch]
    simp [hbody, Except.toOption]

/-- Witness for the amended C2 at concrete inputs. -/
theorem parser_anchor_behavior_witness :
    (itvParse (fun _ => none) (fun s => s) "t0" [HNode.text ("no data")]
        ("https://www.itv.com/news/x")
      = .error ("Could not find __NEXT_DATA__ in page")) ∧
    ((ghostParse (fun _ => none) (fun s => s) "t0" [HNode.text ("hi")]
        ("https://www.404media.co/x/")).toOption.map Article.body
      = some []) :=
  ⟨parser_anchor_behavior.1 (fun _ => none) (fun s => s) "t0"
     [HNode.text ("no data")] ("https://www.itv.com/news/x") rfl,
   parser_anchor_behavior.2 (fun _ => none) (fun s => s) "t0"
     [HNode.text ("hi")] ("https://www.404media.co/x/") rfl rfl⟩

end Inkwell
